import Mathlib

/-!
Verification of the per-actuator scheduling engine of the servoscheduler
repository, as a shallow embedding in Lean 4.

Conventions used throughout this development:
* Rust machine integers (`u8`, `u32`) are modelled as `Nat` (with an explicit
  `% 2 ^ w` at the places where the Rust code can truncate), `i64` as `Int`.
* `chrono::NaiveDate` is modelled by its Rata Die day number (an `Int`,
  with `0001-01-01` of the proleptic Gregorian calendar being day 1, a Monday,
  exactly as in chrono).
* `BTreeMap<u32, T>` is modelled as an association list `List (Nat × T)`
  kept sorted by key (iteration order of a `BTreeMap` is ascending key order).
* `f64` payloads of `ActuatorState::FloatValue` are modelled as `Rat`.
* Fallible Rust code is modelled with `Option`/`Except`; mutating methods of
  `Actuator` become state-passing functions returning the updated record.
* Code of the repository that lives in modules absent from the provided
  sources (`time_slot.rs`, the scheduling part of `schedule.rs`) is modelled
  from the specification; each such definition carries a doc comment starting
  with `Modelled from the spec:`.
-/

/-- Result of comparing two natural numbers, mirroring Rust's `u8::cmp`. -/
def natCmp (a b : Nat) : Ordering :=
  if a < b then .lt else if b < a then .gt else .eq

/-- Time of day, mirroring `struct Time { hour: u8, minute: u8 }` from
`src/time.rs`. -/
structure Time where
  hour : Nat
  minute : Nat
deriving DecidableEq, Repr

/-- Mirrors `Time::DAY_START_HOUR` from `src/time.rs`: a day is defined to
start at 04:00 local time. -/
def Time.DAY_START_HOUR : Nat := 4

/-- Mirrors `Time::EMPTY` from `src/time.rs`: the invalid sentinel with
hour 25. -/
def Time.EMPTY : Time := ⟨25, 0⟩

/-- Mirrors `Time::shifted_hour` from `src/time.rs`:
`(self.hour + 24 - Self::DAY_START_HOUR) % 24`. -/
def Time.shifted_hour (t : Time) : Nat :=
  (t.hour + 24 - Time.DAY_START_HOUR) % 24

/-- Mirrors `impl Ord for Time` (`Time::cmp`) from `src/time.rs`: compare the
shifted hours, then the minutes. -/
def Time.cmp (a b : Time) : Ordering :=
  match natCmp a.shifted_hour b.shifted_hour with
  | .eq => natCmp a.minute b.minute
  | r => r

/-- Rust `a < b` on `Time` (derived from `Time::cmp`). -/
def Time.lt (a b : Time) : Bool := Time.cmp a b == Ordering.lt

/-- Rust `a <= b` on `Time` (derived from `Time::cmp`). -/
def Time.le (a b : Time) : Bool := Time.cmp a b != Ordering.gt

/-- Mirrors `impl ValidCheck for Time` from `src/time.rs`. -/
def Time.valid (t : Time) : Bool := t.hour < 24 && t.minute < 60

/-- Calendar date, mirroring `struct Date` from `src/time.rs`; the wrapped
`chrono::NaiveDate` is modelled by its Rata Die day number. -/
structure Date where
  days : Int
deriving DecidableEq, Repr

/-- Mirrors `Date::empty_date()` from `src/time.rs`: the invalid sentinel
`chrono::NaiveDate::from_yo(1, 1)`, i.e. 0001-01-01, Rata Die day 1. -/
def Date.empty_date : Date := ⟨1⟩

/-- Mirrors `Date::MIN` (`chrono::naive::MIN_DATE`, January 1 of astronomical
year -262144), expressed as its Rata Die day number. -/
def Date.MIN : Date := ⟨-95746495⟩

/-- Mirrors `Date::MAX` (`chrono::naive::MAX_DATE`, December 31 of year
262143), expressed as its Rata Die day number. -/
def Date.MAX : Date := ⟨95745764⟩

/-- Mirrors `impl ValidCheck for Date` from `src/time.rs`:
`*self != Date::empty_date()`. -/
def Date.valid (d : Date) : Bool := d ≠ Date.empty_date

/-- Rust `a <= b` on `Date` (chronological order of `chrono::NaiveDate`). -/
def Date.le (a b : Date) : Bool := a.days ≤ b.days

/-- Rust `a < b` on `Date`. -/
def Date.lt (a b : Date) : Bool := a.days < b.days

/-- Chronological maximum of two dates (Rust `max` under `Ord for Date`). -/
def Date.maxD (a b : Date) : Date := if a.days ≤ b.days then b else a

/-- Chronological minimum of two dates (Rust `min` under `Ord for Date`). -/
def Date.minD (a b : Date) : Date := if a.days ≤ b.days then a else b

/-- Mirrors `chrono::Weekday::num_days_from_monday` of a date's weekday
(Monday is 0, Sunday is 6); Rata Die day 1 is a Monday. -/
def Date.weekdayIndex (d : Date) : Nat := ((d.days - 1) % 7).toNat

/-- Mirrors `impl Add<i64> for Date` from `src/time.rs` (shift by whole
days). -/
def Date.addDays (d : Date) (n : Int) : Date := ⟨d.days + n⟩

/-- Helper for `Date.from_ymd`: days in the given month of the proleptic
Gregorian calendar. -/
def gregorianMonthLength (year : Int) (month : Nat) : Nat :=
  if month = 2 then
    if year % 4 = 0 && (year % 100 ≠ 0 || year % 400 = 0) then 29 else 28
  else if month = 4 || month = 6 || month = 9 || month = 11 then 30
  else 31

/-- Helper for `Date.from_ymd`: days of the proleptic Gregorian calendar
strictly before January 1 of the given year (Rata Die of Jan 1 minus 1). -/
def gregorianDaysBeforeYear (year : Int) : Int :=
  365 * (year - 1) + Int.fdiv (year - 1) 4 - Int.fdiv (year - 1) 100
    + Int.fdiv (year - 1) 400

/-- Helper for `Date.from_ymd`: days of the year strictly before the first of
the given month. -/
def gregorianDaysBeforeMonth (year : Int) (month : Nat) : Nat :=
  (List.range (month - 1)).foldl (fun acc m => acc + gregorianMonthLength year (m + 1)) 0

/-- Mirrors `Date::from_ymd` from `src/time.rs`
(`chrono::NaiveDate::from_ymd_opt`): `none` exactly when the year/month/day
triple is not a proleptic Gregorian date. -/
def Date.from_ymd (year : Int) (month day : Nat) : Option Date :=
  if 1 ≤ month && month ≤ 12 && 1 ≤ day && day ≤ gregorianMonthLength year month then
    some ⟨gregorianDaysBeforeYear year + gregorianDaysBeforeMonth year month + day⟩
  else
    none

/-- Weekday bitfield, mirroring `bitflags! WeekdaySet: u8` from
`src/time.rs` (bit 0 is Monday, bit 6 is Sunday). -/
structure WeekdaySet where
  bits : Nat
deriving DecidableEq, Repr

/-- Mirrors `WeekdaySet::all()` (all seven flag bits set). -/
def WeekdaySet.all : WeekdaySet := ⟨127⟩

/-- Mirrors `WeekdaySet::is_all()`. -/
def WeekdaySet.is_all (s : WeekdaySet) : Bool := s.bits = 127

/-- Mirrors `WeekdaySet::is_empty()`. -/
def WeekdaySet.is_empty (s : WeekdaySet) : Bool := s.bits = 0

/-- Mirrors `&` (intersection) on `WeekdaySet`. -/
def WeekdaySet.inter (s t : WeekdaySet) : WeekdaySet := ⟨s.bits &&& t.bits⟩

/-- Mirrors `WeekdaySet::from_bits`: `none` when a bit outside the seven flag
bits is set. -/
def WeekdaySet.from_bits (bits : Nat) : Option WeekdaySet :=
  if bits &&& 127 = bits then some ⟨bits⟩ else none

/-- Membership of the weekday with the given Monday-based index in the set
(reading of one bit of the bitfield). -/
def WeekdaySet.memIdx (s : WeekdaySet) (w : Nat) : Bool := s.bits.testBit w

/-- Mirrors `Date::weekday` from `src/time.rs`: the singleton `WeekdaySet`
`from_bits(1 << num_days_from_monday).unwrap()`. -/
def Date.weekday (d : Date) : WeekdaySet := ⟨1 <<< d.weekdayIndex⟩

/-- Mirrors `bit_range::<u8>` from `src/utils.rs`:
`((1 << (end - start + 1)) - 1) << start`, in `u8` arithmetic. -/
def bit_range (lo hi : Nat) : Nat :=
  (((1 <<< (hi - lo + 1)) - 1) <<< lo) % 256

/-- Inclusive date range, mirroring `InclusiveRange<Date>` (`DateRange`) from
`src/utils.rs` / `src/time.rs`. The Rust field `end` is named `stop` here
because `end` is a Lean keyword. -/
structure DateRange where
  start : Date
  stop : Date
deriving DecidableEq, Repr

/-- Mirrors `InclusiveRange::overlaps` from `src/utils.rs`:
`self.start <= other.end && other.start <= self.end`. -/
def DateRange.overlaps (a b : DateRange) : Bool :=
  a.start.le b.stop && b.start.le a.stop

/-- Mirrors `InclusiveRange::intersection` from `src/utils.rs`. -/
def DateRange.intersection (a b : DateRange) : Option DateRange :=
  let lo := Date.maxD a.start b.start
  let hi := Date.minD a.stop b.stop
  if lo.le hi then some ⟨lo, hi⟩ else none

/-- Mirrors `InclusiveRange::contains` from `src/utils.rs`. -/
def DateRange.containsD (r : DateRange) (d : Date) : Bool :=
  r.start.le d && d.le r.stop

/-- Mirrors `impl ValidCheck for InclusiveRange` from `src/utils.rs`. -/
def DateRange.valid (r : DateRange) : Bool :=
  r.start.valid && r.stop.valid && r.start.le r.stop

/-- Mirrors `DateRange::weekday_set` from `src/time.rs` up to the final
`unwrap()`: `none` when an `unwrap` would panic (see the safety claim below).
The `as u32` cast of the signed day difference is modelled by `% 2 ^ 32`. -/
def DateRange.weekday_set? (r : DateRange) : Option WeekdaySet :=
  let start_day := r.start.weekdayIndex
  let num_day_diff := ((r.stop.days - r.start.days) % (2 ^ 32)).toNat
  if 6 ≤ num_day_diff then
    some WeekdaySet.all
  else if start_day + num_day_diff ≤ 6 then
    WeekdaySet.from_bits (bit_range start_day (start_day + num_day_diff))
  else
    WeekdaySet.from_bits (bit_range start_day 6 |||
      bit_range 0 ((start_day + num_day_diff) % 7))

/-- Mirrors `DateRange::weekday_set` from `src/time.rs`; the `unwrap()` calls
are modelled by an (unreachable, see the safety claim) empty-set default. -/
def DateRange.weekday_set (r : DateRange) : WeekdaySet :=
  (r.weekday_set?).getD ⟨0⟩

/-- Exclusive time interval, mirroring `ExclusiveRange<Time>`
(`TimeInterval`) from `src/utils.rs` / `src/time.rs`, under the shifted
order on `Time`. The Rust field `end` is named `stop` here. -/
structure TimeInterval where
  start : Time
  stop : Time
deriving DecidableEq, Repr

/-- Mirrors `ExclusiveRange::overlaps` from `src/utils.rs`:
`self.start < other.end && other.start < self.end` (shifted order). -/
def TimeInterval.overlaps (a b : TimeInterval) : Bool :=
  a.start.lt b.stop && b.start.lt a.stop

/-- Mirrors `ExclusiveRange::contains` from `src/utils.rs`:
`start <= t && t < end` (shifted order). -/
def TimeInterval.containsT (i : TimeInterval) (t : Time) : Bool :=
  i.start.le t && t.lt i.stop

/-- Mirrors `impl ValidCheck for ExclusiveRange` from `src/utils.rs`. -/
def TimeInterval.valid (i : TimeInterval) : Bool :=
  i.start.valid && i.stop.valid && i.start.lt i.stop

/-- Actuator state, mirroring `enum ActuatorState` from `src/actuator.rs`;
the `f64` payload of `FloatValue` is modelled as `Rat`. -/
inductive ActuatorState where
  | Toggle (value : Bool)
  | FloatValue (value : Rat)
deriving DecidableEq, Repr

/-- Actuator type, mirroring `enum ActuatorType` from `src/actuator.rs`. -/
inductive ActuatorType where
  | Toggle
  | FloatValue (min max : Rat)
deriving DecidableEq, Repr

/-- Mirrors `struct ActuatorInfo` from `src/actuator.rs`. -/
structure ActuatorInfo where
  name : String
  actuator_type : ActuatorType
deriving DecidableEq, Repr

/-- Mirrors `enum InvalArgError` from the error module (`rpc`). -/
inductive InvalArgError where
  | ActuatorId
  | TimeSlotId
  | TimeOverrideId
  | TimePeriod
  | ActuatorState
deriving DecidableEq, Repr

/-- Mirrors `enum Error` from the error module (`rpc`). -/
inductive RpcError where
  | InvalidArgument (kind : InvalArgError)
  | TimeSlotOverlap (other_slot_id : Nat)
  | TimeOverrideOverlap (other_override_id : Nat)
deriving DecidableEq, Repr

/-- Mirrors `struct TimePeriod` from `src/schedule.rs`. -/
structure TimePeriod where
  time_interval : TimeInterval
  date_range : DateRange
  days : WeekdaySet
deriving DecidableEq, Repr

/-- Mirrors `TimePeriod::overlaps_dates` from `src/schedule.rs`: the date
ranges intersect and (fast path: both day sets full, or some weekday lies in
the intersection's weekday set and both day sets). -/
def TimePeriod.overlaps_dates (p other : TimePeriod) : Bool :=
  match p.date_range.intersection other.date_range with
  | some inter =>
    if p.days.is_all && other.days.is_all then
      true
    else
      !(((inter.weekday_set).inter p.days |>.inter other.days).is_empty)
  | none => false

/-- Mirrors `TimePeriod::overlaps` from `src/schedule.rs`. -/
def TimePeriod.overlapsP (p other : TimePeriod) : Bool :=
  p.overlaps_dates other && p.time_interval.overlaps other.time_interval

/-- Mirrors `impl ValidCheck for TimePeriod` from `src/schedule.rs`. -/
def TimePeriod.valid (p : TimePeriod) : Bool :=
  p.time_interval.valid && p.date_range.valid && !(p.days.is_empty)

/-- Mirrors `struct TimeSlot` from `src/schedule.rs`; the override
`BTreeMap<u32, TimePeriod>` is a key-sorted association list. -/
structure TimeSlot where
  enabled : Bool
  actuator_state : ActuatorState
  time_period : TimePeriod
  time_override : List (Nat × TimePeriod)
deriving DecidableEq, Repr

/-- Mirrors `TimeSlot::new` from `src/schedule.rs`. -/
def TimeSlot.new (enabled : Bool) (actuator_state : ActuatorState)
    (time_period : TimePeriod) : TimeSlot :=
  ⟨enabled, actuator_state, time_period, []⟩

/-- Mirrors `TimeSlot::overlaps` from `src/schedule.rs`: base periods overlap
on dates and (base intervals overlap, or some override of the slot fully
overlaps the probed period). -/
def TimeSlot.overlaps (ts : TimeSlot) (time_period : TimePeriod) : Bool :=
  if ts.time_period.overlaps_dates time_period then
    if ts.time_period.time_interval.overlaps time_period.time_interval then
      true
    else
      ts.time_override.any (fun kv => kv.2.overlapsP time_period)
  else
    false

/-- Wall-clock instant (date plus time of day), mirroring the repository's
`DateTime` value type; mutators receive the instant of the call as an
explicit argument in place of `DateTime::now()`. -/
structure DateTime where
  date : Date
  time : Time
deriving DecidableEq, Repr

/-- Modelled from the spec: `Time::MAX` (absent `src/time.rs` constant used
by `src/actuator.rs`), the end-of-day sentinel, strictly greater than every
valid time in the shifted order ("until the day rolls over"). -/
def Time.MAX : Time := ⟨3, 60⟩

/-- Modelled from the spec: whether a `TimePeriod` covers a date (the date
lies in its date range and the date's weekday is one of its days), the
predicate of step 1 and 2 of `effective_on` in §4.2 (the `time_slot.rs`
module is absent from the sources). -/
def TimePeriod.covers (p : TimePeriod) (d : Date) : Bool :=
  p.date_range.containsD d && !((d.weekday.inter p.days).is_empty)

/-- First entry of a key-sorted association list of overrides whose period
covers the given date. -/
def findCoveringOverride (d : Date) : List (Nat × TimePeriod) → Option (Nat × TimePeriod)
  | [] => none
  | kv :: rest =>
    if kv.2.covers d then some kv else findCoveringOverride d rest

/-- Modelled from the spec: `TimeSlot::time_interval_on`
(`effective_on(date)` of §4.2; the `time_slot.rs` module is absent from the
sources). If an override covers the date, its interval and id; otherwise the
base interval if the base period covers the date; otherwise `none`. -/
def TimeSlot.time_interval_on (ts : TimeSlot) (d : Date) :
    Option (TimeInterval × Option Nat) :=
  match findCoveringOverride d ts.time_override with
  | some kv => some (kv.2.time_interval, some kv.1)
  | none =>
    if ts.time_period.covers d then
      some (ts.time_period.time_interval, none)
    else
      none

/-- Lookup in a key-sorted association list (`BTreeMap::get`). -/
def mapLookup (k : Nat) : List (Nat × α) → Option α
  | [] => none
  | kv :: rest => if kv.1 = k then some kv.2 else mapLookup k rest

/-- Insertion into a key-sorted association list (`BTreeMap::insert`),
keeping the list sorted by key and replacing an existing binding. -/
def mapInsert (k : Nat) (v : α) : List (Nat × α) → List (Nat × α)
  | [] => [(k, v)]
  | kv :: rest =>
    if k < kv.1 then (k, v) :: kv :: rest
    else if k = kv.1 then (k, v) :: rest
    else kv :: mapInsert k v rest

/-- Removal from a key-sorted association list (`BTreeMap::remove`); removes
the first binding of the key, if any. -/
def mapErase (k : Nat) : List (Nat × α) → List (Nat × α)
  | [] => []
  | kv :: rest => if kv.1 = k then rest else kv :: mapErase k rest

/-- In-place update of the value bound to a key (`BTreeMap::get_mut`
followed by a mutation); changes the first binding of the key, if any. -/
def mapModify (k : Nat) (f : α → α) : List (Nat × α) → List (Nat × α)
  | [] => []
  | kv :: rest =>
    if kv.1 = k then (kv.1, f kv.2) :: rest else kv :: mapModify k f rest

/-- Mirrors `enum ActiveTimeSlotState` from `src/actuator.rs`. -/
inductive ActiveTimeSlotState where
  | TimeSlotActive (id : Nat) (override_id : Option Nat)
  | DefaultStateActive (next_id : Option Nat) (next_override_id : Option Nat)
deriving DecidableEq, Repr

/-- Mirrors `struct ActiveTimeSlot` from `src/actuator.rs`. -/
structure ActiveTimeSlot where
  state : ActiveTimeSlotState
  end_time : Time
  actuator_state : ActuatorState
deriving DecidableEq, Repr

/-- Mirrors `ActiveTimeSlot::timeslot` from `src/actuator.rs`. -/
def ActiveTimeSlot.timeslot (id : Nat) (override_id : Option Nat)
    (end_time : Time) (actuator_state : ActuatorState) : ActiveTimeSlot :=
  ⟨.TimeSlotActive id override_id, end_time, actuator_state⟩

/-- Mirrors `ActiveTimeSlot::default_state` from `src/actuator.rs`. -/
def ActiveTimeSlot.default_state (actuator_state : ActuatorState) : ActiveTimeSlot :=
  ⟨.DefaultStateActive none none, Time.MAX, actuator_state⟩

/-- Mirrors `ActiveTimeSlot::default_state_until` from `src/actuator.rs`. -/
def ActiveTimeSlot.default_state_until (next_id : Nat) (next_override_id : Option Nat)
    (end_time : Time) (actuator_state : ActuatorState) : ActiveTimeSlot :=
  ⟨.DefaultStateActive (some next_id) next_override_id, end_time, actuator_state⟩

/-- Record returned by the schedule algebra for the next slot to become
active: its id, the effective override id, the effective time interval and
the slot's actuator state (the fields of it that `src/actuator.rs` reads). -/
structure ScheduleTimeSlot where
  id : Nat
  override_id : Option Nat
  time_interval : TimeInterval
  actuator_state : ActuatorState
deriving DecidableEq, Repr

/-- Modelled from the spec: whether one slot entry is a candidate for
`next_active` (§4.3; the scheduling part of `schedule.rs` is absent from the
sources): the slot is enabled, is effective on the current date, and its
effective interval starts no earlier than the current time (shifted order). -/
def scheduleCandidate (now : DateTime) (kv : Nat × TimeSlot) : Option ScheduleTimeSlot :=
  if kv.2.enabled then
    match kv.2.time_interval_on now.date with
    | some (tit, oid) =>
      if now.time.le tit.start then some ⟨kv.1, oid, tit, kv.2.actuator_state⟩ else none
    | none => none
  else
    none

/-- Strict "starts earlier" order on candidate records: smaller start in the
shifted order, ties broken by smaller slot id (§4.3). -/
def schedLt (x y : ScheduleTimeSlot) : Bool :=
  x.time_interval.start.lt y.time_interval.start ||
    (Time.cmp x.time_interval.start y.time_interval.start == Ordering.eq && x.id < y.id)

/-- Selection of the minimal candidate under `schedLt` (the earliest
starting candidate, ties to the smallest id). -/
def selectNext : List ScheduleTimeSlot → Option ScheduleTimeSlot
  | [] => none
  | c :: rest =>
    match selectNext rest with
    | none => some c
    | some b => if schedLt b c then some b else some c

/-- Modelled from the spec: `schedule::find_next_timeslot` (`next_active` of
§4.3; absent from the sources): among all enabled slots effective on the
current date whose interval starts at or after the current time, the one
with the smallest start, ties broken by slot id. -/
def find_next_timeslot (timeslots : List (Nat × TimeSlot)) (now : DateTime) :
    Option ScheduleTimeSlot :=
  selectNext (timeslots.filterMap (scheduleCandidate now))

/-- Mirrors `ActiveTimeSlot::compute` from `src/actuator.rs`. -/
def ActiveTimeSlot.compute (now : DateTime) (timeslots : List (Nat × TimeSlot))
    (default_state : ActuatorState) : ActiveTimeSlot :=
  match find_next_timeslot timeslots now with
  | some slot =>
    if slot.time_interval.start = now.time then
      ActiveTimeSlot.timeslot slot.id slot.override_id slot.time_interval.stop
        slot.actuator_state
    else
      ActiveTimeSlot.default_state_until slot.id slot.override_id
        slot.time_interval.start default_state
  | none => ActiveTimeSlot.default_state default_state

/-- Mirrors `ActiveTimeSlot::update_timeslot_added` from `src/actuator.rs`;
`DateTime::now()` becomes the explicit `now` argument. -/
def ActiveTimeSlot.update_timeslot_added (ats : ActiveTimeSlot) (timeslot : TimeSlot)
    (id : Nat) (now : DateTime) : ActiveTimeSlot :=
  match ats.state with
  | .DefaultStateActive _ _ =>
    match timeslot.time_interval_on now.date with
    | some (time_interval_today, override_id) =>
      if time_interval_today.containsT now.time then
        ActiveTimeSlot.timeslot id override_id time_interval_today.stop
          timeslot.actuator_state
      else if now.time.lt time_interval_today.start &&
          time_interval_today.start.lt ats.end_time then
        ActiveTimeSlot.default_state_until id override_id time_interval_today.start
          ats.actuator_state
      else
        ats
    | none => ats
  | _ => ats

/-- Mirrors `ActiveTimeSlot::update_timeslot_removed` from
`src/actuator.rs`. -/
def ActiveTimeSlot.update_timeslot_removed (ats : ActiveTimeSlot) (timeslot_id : Nat)
    (timeslots : List (Nat × TimeSlot)) (default_state : ActuatorState)
    (now : DateTime) : ActiveTimeSlot :=
  let recompute : Bool :=
    match ats.state with
    | .TimeSlotActive id _ => id = timeslot_id
    | .DefaultStateActive next_id _ => next_id = some timeslot_id
  if recompute then ActiveTimeSlot.compute now timeslots default_state else ats

/-- Mirrors `ActiveTimeSlot::update_timeslot_modified` from
`src/actuator.rs` (the `recompute` flag is inlined into the branches). -/
def ActiveTimeSlot.update_timeslot_modified (ats : ActiveTimeSlot) (timeslot : TimeSlot)
    (timeslot_id : Nat) (timeslots : List (Nat × TimeSlot))
    (default_state : ActuatorState) (now : DateTime) : ActiveTimeSlot :=
  match timeslot.time_interval_on now.date with
  | some (time_interval_today, override_id) =>
    if time_interval_today.containsT now.time then
      ActiveTimeSlot.timeslot timeslot_id override_id time_interval_today.stop
        timeslot.actuator_state
    else
      match ats.state with
      | .TimeSlotActive id _ =>
        if id = timeslot_id then ActiveTimeSlot.compute now timeslots default_state
        else ats
      | .DefaultStateActive next_id _ =>
        if now.time.lt time_interval_today.start &&
            time_interval_today.start.le ats.end_time then
          ActiveTimeSlot.default_state_until timeslot_id override_id
            time_interval_today.start ats.actuator_state
        else if next_id = some timeslot_id then
          ActiveTimeSlot.compute now timeslots default_state
        else
          ats
  | none =>
    match ats.state with
    | .TimeSlotActive id _ =>
      if id = timeslot_id then ActiveTimeSlot.compute now timeslots default_state
      else ats
    | .DefaultStateActive next_id _ =>
      if next_id = some timeslot_id then ActiveTimeSlot.compute now timeslots default_state
      else ats

/-- Mirrors `struct ThreadComm` from `src/actuator.rs`. -/
structure ThreadComm where
  active_timeslot : ActiveTimeSlot
  modified : Bool
deriving DecidableEq, Repr

/-- Mirrors `struct Actuator` from `src/actuator.rs`; the controller handle
and the condition variable (pure side-effect plumbing) are not part of the
sequential state. -/
structure Actuator where
  info : ActuatorInfo
  timeslots : List (Nat × TimeSlot)
  default_state : ActuatorState
  next_timeslot_id : Nat
  next_override_id : Nat
  comm : ThreadComm
deriving DecidableEq, Repr

/-- Mirrors the state set up by `Actuator::new` from `src/actuator.rs`. -/
def Actuator.new (info : ActuatorInfo) (default_state : ActuatorState) : Actuator :=
  { info := info
    timeslots := []
    default_state := default_state
    next_timeslot_id := 0
    next_override_id := 0
    comm := { active_timeslot := ActiveTimeSlot.default_state default_state
              modified := false } }

/-- Mirrors `Actuator::valid_state` from `src/actuator.rs`. -/
def Actuator.valid_state (a : Actuator) (state : ActuatorState) : Bool :=
  match a.info.actuator_type with
  | .Toggle =>
    match state with
    | .Toggle _ => true
    | _ => false
  | .FloatValue min max =>
    match state with
    | .FloatValue value => decide (min ≤ value) && decide (value ≤ max)
    | _ => false

/-- Mirrors `Actuator::update_active_timeslot_and_notify` from
`src/actuator.rs`: apply the update to a copy of the active timeslot and
swap it in (setting the modified flag) only if it actually changed. -/
def updateComm (a : Actuator) (f : ActiveTimeSlot → ActiveTimeSlot) : ThreadComm :=
  let new_active := f a.comm.active_timeslot
  if new_active = a.comm.active_timeslot then a.comm
  else { active_timeslot := new_active, modified := true }

/-- First slot entry (ascending id order) overlapping the period, mirroring
the overlap loop of `Actuator::add_time_slot`. -/
def firstOverlap (p : TimePeriod) : List (Nat × TimeSlot) → Option Nat
  | [] => none
  | kv :: rest => if kv.2.overlaps p then some kv.1 else firstOverlap p rest

/-- First slot entry other than `skip` (ascending id order) overlapping the
period, mirroring the skip-the-target overlap loops of
`Actuator::time_slot_set_time_period` and
`Actuator::time_slot_add_time_override`. -/
def firstOverlapExcept (skip : Nat) (p : TimePeriod) : List (Nat × TimeSlot) → Option Nat
  | [] => none
  | kv :: rest =>
    if kv.1 = skip then firstOverlapExcept skip p rest
    else if kv.2.overlaps p then some kv.1
    else firstOverlapExcept skip p rest

/-- First override entry overlapping the period on dates, mirroring the
override loop of `Actuator::time_slot_add_time_override`. -/
def firstDateOverlap (p : TimePeriod) : List (Nat × TimePeriod) → Option Nat
  | [] => none
  | kv :: rest => if kv.2.overlaps_dates p then some kv.1 else firstDateOverlap p rest

/-- Mirrors `Actuator::set_default_state` from `src/actuator.rs`. -/
def Actuator.set_default_state (a : Actuator) (default_state : ActuatorState)
    (now : DateTime) : Except RpcError Unit × Actuator :=
  if !(a.valid_state default_state) then
    (.error (.InvalidArgument .ActuatorState), a)
  else
    let a1 := { a with default_state := default_state }
    (.ok (), { a1 with comm := updateComm a1 (fun ats =>
      match ats.state with
      | .DefaultStateActive _ _ => { ats with actuator_state := default_state }
      | _ => ats) })

/-- Mirrors `Actuator::add_time_slot` from `src/actuator.rs`; the u32
counter increment `self.next_timeslot_id += 1` is modelled with its
release-mode wrap-around, `% 2 ^ 32` (a debug build would panic on the
overflow instead). -/
def Actuator.add_time_slot (a : Actuator) (time_period : TimePeriod)
    (actuator_state : ActuatorState) (enabled : Bool) (now : DateTime) :
    Except RpcError Nat × Actuator :=
  if !time_period.valid then
    (.error (.InvalidArgument .TimePeriod), a)
  else if !(a.valid_state actuator_state) then
    (.error (.InvalidArgument .ActuatorState), a)
  else
    match firstOverlap time_period a.timeslots with
    | some id => (.error (.TimeSlotOverlap id), a)
    | none =>
      let id := a.next_timeslot_id
      let ts := TimeSlot.new enabled actuator_state time_period
      let a1 := { a with timeslots := mapInsert id ts a.timeslots
                         next_timeslot_id := (id + 1) % 2 ^ 32 }
      (.ok id, { a1 with comm := updateComm a1 (fun ats =>
        ats.update_timeslot_added ts id now) })

/-- Mirrors `Actuator::remove_time_slot` from `src/actuator.rs` (the map
removal happens before the present-check, as in the Rust code). -/
def Actuator.remove_time_slot (a : Actuator) (time_slot_id : Nat) (now : DateTime) :
    Except RpcError Unit × Actuator :=
  let present := mapLookup time_slot_id a.timeslots
  let a1 := { a with timeslots := mapErase time_slot_id a.timeslots }
  if present.isNone then
    (.error (.InvalidArgument .TimeSlotId), a1)
  else
    (.ok (), { a1 with comm := updateComm a1 (fun ats =>
      ats.update_timeslot_removed time_slot_id a1.timeslots a1.default_state now) })

/-- Mirrors `Actuator::time_slot_set_time_period` from `src/actuator.rs`.
Note that, as in the source, the overlap check probes the raw `time_period`
argument (sentinel fields included), not the patched candidate period. -/
def Actuator.time_slot_set_time_period (a : Actuator) (time_slot_id : Nat)
    (time_period : TimePeriod) (now : DateTime) : Except RpcError Unit × Actuator :=
  match firstOverlapExcept time_slot_id time_period a.timeslots with
  | some other_id => (.error (.TimeSlotOverlap other_id), a)
  | none =>
    match mapLookup time_slot_id a.timeslots with
    | none => (.error (.InvalidArgument .TimeSlotId), a)
    | some ts =>
      let cur := ts.time_period
      let new_time_period : TimePeriod :=
        { time_interval :=
            ⟨if time_period.time_interval.start ≠ Time.EMPTY then
                time_period.time_interval.start
              else cur.time_interval.start,
              if time_period.time_interval.stop ≠ Time.EMPTY then
                time_period.time_interval.stop
              else cur.time_interval.stop⟩
          date_range :=
            ⟨if time_period.date_range.start ≠ Date.empty_date then
                time_period.date_range.start
              else cur.date_range.start,
              if time_period.date_range.stop ≠ Date.empty_date then
                time_period.date_range.stop
              else cur.date_range.stop⟩
          days := if !time_period.days.is_empty then time_period.days else cur.days }
      if !new_time_period.valid then
        (.error (.InvalidArgument .TimePeriod), a)
      else
        let nts := { ts with time_period := new_time_period }
        let a1 := { a with timeslots := mapModify time_slot_id (fun _ => nts) a.timeslots }
        (.ok (), { a1 with comm := updateComm a1 (fun ats =>
          ats.update_timeslot_modified nts time_slot_id a1.timeslots a1.default_state now) })

/-- Mirrors `Actuator::time_slot_set_enabled` from `src/actuator.rs`. -/
def Actuator.time_slot_set_enabled (a : Actuator) (time_slot_id : Nat)
    (enabled : Bool) (now : DateTime) : Except RpcError Unit × Actuator :=
  match mapLookup time_slot_id a.timeslots with
  | none => (.error (.InvalidArgument .TimeSlotId), a)
  | some ts =>
    let old_enabled := ts.enabled
    let nts := { ts with enabled := enabled }
    let a1 := { a with timeslots := mapModify time_slot_id (fun _ => nts) a.timeslots }
    if old_enabled ≠ enabled then
      if enabled then
        (.ok (), { a1 with comm := updateComm a1 (fun ats =>
          ats.update_timeslot_added nts time_slot_id now) })
      else
        (.ok (), { a1 with comm := updateComm a1 (fun ats =>
          ats.update_timeslot_removed time_slot_id a1.timeslots a1.default_state now) })
    else
      (.ok (), a1)

/-- Mirrors `Actuator::time_slot_set_actuator_state` from
`src/actuator.rs`. -/
def Actuator.time_slot_set_actuator_state (a : Actuator) (time_slot_id : Nat)
    (actuator_state : ActuatorState) (now : DateTime) : Except RpcError Unit × Actuator :=
  if !(a.valid_state actuator_state) then
    (.error (.InvalidArgument .ActuatorState), a)
  else
    match mapLookup time_slot_id a.timeslots with
    | none => (.error (.InvalidArgument .TimeSlotId), a)
    | some ts =>
      let nts := { ts with actuator_state := actuator_state }
      let a1 := { a with timeslots := mapModify time_slot_id (fun _ => nts) a.timeslots }
      (.ok (), { a1 with comm := updateComm a1 (fun ats =>
        match ats.state with
        | .TimeSlotActive id _ =>
          if id = time_slot_id then { ats with actuator_state := actuator_state } else ats
        | _ => ats) })

/-- Mirrors `Actuator::time_slot_add_time_override` from `src/actuator.rs`;
the u32 counter increment `self.next_override_id += 1` is modelled with its
release-mode wrap-around, `% 2 ^ 32` (a debug build would panic on the
overflow instead). -/
def Actuator.time_slot_add_time_override (a : Actuator) (time_slot_id : Nat)
    (time_period : TimePeriod) (now : DateTime) : Except RpcError Nat × Actuator :=
  if !time_period.valid then
    (.error (.InvalidArgument .TimePeriod), a)
  else
    let new_override_id := a.next_override_id
    match firstOverlapExcept time_slot_id time_period a.timeslots with
    | some id => (.error (.TimeSlotOverlap id), a)
    | none =>
      match mapLookup time_slot_id a.timeslots with
      | none => (.error (.InvalidArgument .TimeSlotId), a)
      | some ts =>
        match firstDateOverlap time_period ts.time_override with
        | some id => (.error (.TimeOverrideOverlap id), a)
        | none =>
          let nts := { ts with
            time_override := mapInsert new_override_id time_period ts.time_override }
          let a1 := { a with
            timeslots := mapModify time_slot_id (fun _ => nts) a.timeslots
            next_override_id := (a.next_override_id + 1) % 2 ^ 32 }
          (.ok new_override_id, { a1 with comm := updateComm a1 (fun ats =>
            ats.update_timeslot_modified nts time_slot_id a1.timeslots a1.default_state now) })

/-- Mirrors `Actuator::time_slot_remove_time_override` from `src/actuator.rs`
(the override removal happens before the present-check, as in the Rust
code). -/
def Actuator.time_slot_remove_time_override (a : Actuator) (time_slot_id : Nat)
    (time_override_id : Nat) (now : DateTime) : Except RpcError Unit × Actuator :=
  match mapLookup time_slot_id a.timeslots with
  | none => (.error (.InvalidArgument .TimeSlotId), a)
  | some ts =>
    let present := mapLookup time_override_id ts.time_override
    let nts := { ts with time_override := mapErase time_override_id ts.time_override }
    let a1 := { a with timeslots := mapModify time_slot_id (fun _ => nts) a.timeslots }
    if present.isNone then
      (.error (.InvalidArgument .TimeOverrideId), a1)
    else
      (.ok (), { a1 with comm := updateComm a1 (fun ats =>
        ats.update_timeslot_modified nts time_slot_id a1.timeslots a1.default_state now) })

/-- The slot-overlap relation on two slots as defined in §3 of the spec:
base periods overlap on dates and (base intervals overlap, or some override
of either slot fully overlaps the other slot's period). -/
def slotsOverlapSpec (s1 s2 : TimeSlot) : Bool :=
  s1.time_period.overlaps_dates s2.time_period &&
    (s1.time_period.time_interval.overlaps s2.time_period.time_interval ||
     s1.time_override.any (fun kv => kv.2.overlapsP s2.time_period) ||
     s2.time_override.any (fun kv => kv.2.overlapsP s1.time_period))

/-- The date 08/05/2017 (a Monday), as a Rata Die day number. -/
def date20170508 : Date := ⟨736457⟩

/-- The single-date range 08/05/2017–08/05/2017. -/
def range20170508 : DateRange := ⟨date20170508, date20170508⟩

/-- A fresh Toggle actuator with default state Off. -/
def toggleActuator : Actuator :=
  Actuator.new ⟨"toggle", ActuatorType.Toggle⟩ (ActuatorState.Toggle false)

/-- Scenario S1 period A: 23:05–03:05 on 08/05/2017, all weekdays. -/
def s1PeriodA : TimePeriod := ⟨⟨⟨23, 5⟩, ⟨3, 5⟩⟩, range20170508, WeekdaySet.all⟩

/-- Scenario S1 period B: 18:05–23:04 on 08/05/2017, all weekdays. -/
def s1PeriodB : TimePeriod := ⟨⟨⟨18, 5⟩, ⟨23, 4⟩⟩, range20170508, WeekdaySet.all⟩

/-- Scenario S1 period C: 22:00–23:06 on 08/05/2017, all weekdays. -/
def s1PeriodC : TimePeriod := ⟨⟨⟨22, 0⟩, ⟨23, 6⟩⟩, range20170508, WeekdaySet.all⟩

/-- Scenario S1 after adding slot A. -/
def s1Step1 (now : DateTime) : Except RpcError Nat × Actuator :=
  toggleActuator.add_time_slot s1PeriodA (ActuatorState.Toggle true) true now

/-- Scenario S1 after adding slot B. -/
def s1Step2 (now : DateTime) : Except RpcError Nat × Actuator :=
  (s1Step1 now).2.add_time_slot s1PeriodB (ActuatorState.Toggle true) true now

/-- Scenario S1 attempting to add slot C. -/
def s1Step3 (now : DateTime) : Except RpcError Nat × Actuator :=
  (s1Step2 now).2.add_time_slot s1PeriodC (ActuatorState.Toggle true) true now

/-- C6: on a Toggle actuator with empty slot table, adding the S1 slots
23:05–03:05 and 18:05–23:04 on 08/05/2017 (all weekdays, state On) returns
ids 0 and 1, and then adding 22:00–23:06 on the same date returns
`TimeSlotOverlap(0)`, leaves the stored slots unchanged and leaves
`next_timeslot_id` at 2 (at any call instant `now`). -/
theorem c6_s1_overlap_rejection (now : DateTime) :
    Date.from_ymd 2017 5 8 = some date20170508 ∧
    (s1Step1 now).1 = .ok 0 ∧
    (s1Step2 now).1 = .ok 1 ∧
    (s1Step3 now).1 = .error (RpcError.TimeSlotOverlap 0) ∧
    (s1Step3 now).2.timeslots = (s1Step2 now).2.timeslots ∧
    (s1Step3 now).2.next_timeslot_id = 2 :=
  ⟨rfl, rfl, rfl, rfl, rfl, rfl⟩

/-- Base period of the first slot of the patch-bug scenario: 09:00–10:00 on
08/05/2017, all weekdays. -/
def bugPeriod0 : TimePeriod := ⟨⟨⟨9, 0⟩, ⟨10, 0⟩⟩, range20170508, WeekdaySet.all⟩

/-- Base period of the second slot of the patch-bug scenario: 11:00–12:00 on
08/05/2017, all weekdays. -/
def bugPeriod1 : TimePeriod := ⟨⟨⟨11, 0⟩, ⟨12, 0⟩⟩, range20170508, WeekdaySet.all⟩

/-- Patch for the patch-bug scenario: new interval 09:30–10:30, sentinel
`EMPTY` date endpoints and the empty weekday set ("leave unchanged"). -/
def bugPatch : TimePeriod :=
  ⟨⟨⟨9, 30⟩, ⟨10, 30⟩⟩, ⟨Date.empty_date, Date.empty_date⟩, ⟨0⟩⟩

/-- The candidate period the patch denotes: 09:30–10:30 on 08/05/2017, all
weekdays (it overlaps `bugPeriod0`). -/
def bugCandidate : TimePeriod := ⟨⟨⟨9, 30⟩, ⟨10, 30⟩⟩, range20170508, WeekdaySet.all⟩

/-- Patch-bug scenario after adding slot 0. -/
def bugStep1 (now : DateTime) : Except RpcError Nat × Actuator :=
  toggleActuator.add_time_slot bugPeriod0 (ActuatorState.Toggle true) true now

/-- Patch-bug scenario after adding slot 1. -/
def bugStep2 (now : DateTime) : Except RpcError Nat × Actuator :=
  (bugStep1 now).2.add_time_slot bugPeriod1 (ActuatorState.Toggle true) true now

/-- Patch-bug scenario after patching slot 1's period with `bugPatch`. -/
def bugStep3 (now : DateTime) : Except RpcError Unit × Actuator :=
  (bugStep2 now).2.time_slot_set_time_period 1 bugPatch now

/-- C1 (failing input): all three mutations of the patch-bug scenario
succeed, yet afterwards the two stored slots overlap in the sense of §3 —
`time_slot_set_time_period` checks other slots against the raw sentinel
patch instead of the patched candidate period, so the pairwise non-overlap
invariant is violated. -/
theorem c1_invariant_broken_by_set_time_period (now : DateTime) :
    (bugStep1 now).1 = .ok 0 ∧
    (bugStep2 now).1 = .ok 1 ∧
    (bugStep3 now).1 = .ok () ∧
    ((mapLookup 0 (bugStep3 now).2.timeslots).bind fun t0 =>
      (mapLookup 1 (bugStep3 now).2.timeslots).map fun t1 =>
        slotsOverlapSpec t0 t1) = some true := by
  with_unfolding_all exact ⟨rfl, rfl, rfl, rfl⟩

/-- C4 (failing input): patching slot 1 with `bugPatch` succeeds although
slot 0 overlaps the candidate period built from the patch; the code probes
the raw patch (sentinel fields included) instead of the candidate, contrary
to the claim. The patched slot does end up holding exactly the candidate. -/
theorem c4_overlap_checked_against_patch_not_candidate (now : DateTime) :
    (bugStep3 now).1 = .ok () ∧
    ((mapLookup 0 (bugStep2 now).2.timeslots).map fun t0 =>
      t0.overlaps bugCandidate) = some true ∧
    ((mapLookup 1 (bugStep3 now).2.timeslots).map fun t1 =>
      t1.time_period) = some bugCandidate := by
  with_unfolding_all exact ⟨rfl, rfl, rfl⟩

/-- Call instant used by the incremental-update counterexample: 08/05/2017
at 12:00. -/
def cegNow : DateTime := ⟨date20170508, ⟨12, 0⟩⟩

/-- Period of the disabled slot of the incremental-update counterexample:
10:00–14:00 on 08/05/2017, all weekdays (it covers 12:00). -/
def cegPeriod : TimePeriod := ⟨⟨⟨10, 0⟩, ⟨14, 0⟩⟩, range20170508, WeekdaySet.all⟩

/-- The incremental-update counterexample step: adding a *disabled* slot
covering the current instant. -/
def cegStep : Except RpcError Nat × Actuator :=
  toggleActuator.add_time_slot cegPeriod (ActuatorState.Toggle true) false cegNow

/-- C2 (counterexample): starting from a fresh actuator whose `ActiveSlot`
agrees with a full recompute, adding a disabled slot whose interval covers
the current instant succeeds, and afterwards the incrementally updated
`ActiveSlot` (which marks the disabled slot active) differs from
`compute(now, slots, default_state)` (which ignores disabled slots). -/
theorem c2_incremental_update_differs_from_compute :
    toggleActuator.comm.active_timeslot =
      ActiveTimeSlot.compute cegNow toggleActuator.timeslots toggleActuator.default_state ∧
    cegStep.1 = .ok 0 ∧
    cegStep.2.comm.active_timeslot ≠
      ActiveTimeSlot.compute cegNow cegStep.2.timeslots cegStep.2.default_state :=
  ⟨rfl, rfl, by decide⟩

/-- C7 (counterexample): `Time::cmp` compares the sentinel `Time::EMPTY`
(hour 25) as equal to the valid time 01:00, because `shifted_hour` maps both
hours 25 and 1 to 21; so `cmp` returning `Equal` does not imply bitwise
equality on all `Time` values. -/
theorem c7_cmp_equal_is_not_bitwise_on_empty :
    Time.cmp Time.EMPTY ⟨1, 0⟩ = Ordering.eq ∧ Time.EMPTY ≠ (⟨1, 0⟩ : Time) :=
  ⟨rfl, by decide⟩

lemma natCmp_eq_lt {a b : Nat} : natCmp a b = Ordering.lt ↔ a < b := by
  unfold natCmp; split_ifs <;> simp <;> omega

lemma natCmp_eq_gt {a b : Nat} : natCmp a b = Ordering.gt ↔ b < a := by
  unfold natCmp; split_ifs <;> simp <;> omega

lemma natCmp_eq_eq {a b : Nat} : natCmp a b = Ordering.eq ↔ a = b := by
  unfold natCmp; split_ifs <;> simp <;> omega

lemma time_cmp_lt_iff (a b : Time) :
    Time.cmp a b = Ordering.lt ↔
      (a.shifted_hour < b.shifted_hour ∨
        (a.shifted_hour = b.shifted_hour ∧ a.minute < b.minute)) := by
  unfold Time.cmp
  cases h : natCmp a.shifted_hour b.shifted_hour <;>
    simp_all [natCmp_eq_lt, natCmp_eq_gt, natCmp_eq_eq] <;> omega

lemma time_cmp_gt_iff (a b : Time) :
    Time.cmp a b = Ordering.gt ↔
      (b.shifted_hour < a.shifted_hour ∨
        (a.shifted_hour = b.shifted_hour ∧ b.minute < a.minute)) := by
  unfold Time.cmp
  cases h : natCmp a.shifted_hour b.shifted_hour <;>
    simp_all [natCmp_eq_lt, natCmp_eq_gt, natCmp_eq_eq] <;> omega

lemma time_cmp_eq_iff (a b : Time) :
    Time.cmp a b = Ordering.eq ↔
      (a.shifted_hour = b.shifted_hour ∧ a.minute = b.minute) := by
  unfold Time.cmp
  cases h : natCmp a.shifted_hour b.shifted_hour <;>
    simp_all [natCmp_eq_lt, natCmp_eq_gt, natCmp_eq_eq] <;> omega

lemma shifted_hour_lt_24 (a : Time) : a.shifted_hour < 24 := by
  unfold Time.shifted_hour; omega

lemma shifted_hour_inj {a b : Time} (ha : a.hour < 24) (hb : b.hour < 24)
    (h : a.shifted_hour = b.shifted_hour) : a.hour = b.hour := by
  unfold Time.shifted_hour Time.DAY_START_HOUR at h; omega

/-- C7 (amended): on valid times, `Time::cmp` is the total order obtained by
rotating hours by −4 mod 24: `Equal` means bitwise equality, `lt`/`gt` are
converses, comparison is transitive, 04:00 is the least and 03:59 the
greatest valid time, and 05:00 < 23:00 < 02:00 < 03:59. (On the sentinel
`Time::EMPTY` the bitwise-equality reading of `Equal` fails, see the
counterexample.) -/
theorem c7_shifted_order_on_valid_times (a b c : Time)
    (ha : a.valid = true) (hb : b.valid = true) (hc : c.valid = true) :
    (Time.cmp a b = Ordering.eq ↔ a = b) ∧
    (Time.cmp a b = Ordering.lt ↔ Time.cmp b a = Ordering.gt) ∧
    (Time.cmp a b = Ordering.lt → Time.cmp b c = Ordering.lt →
      Time.cmp a c = Ordering.lt) ∧
    Time.le ⟨4, 0⟩ a = true ∧
    Time.le a ⟨3, 59⟩ = true ∧
    Time.cmp ⟨5, 0⟩ ⟨23, 0⟩ = Ordering.lt ∧
    Time.cmp ⟨23, 0⟩ ⟨2, 0⟩ = Ordering.lt ∧
    Time.cmp ⟨2, 0⟩ ⟨3, 59⟩ = Ordering.lt := by
  simp only [Time.valid, Bool.and_eq_true, decide_eq_true_eq] at ha hb hc
  refine ⟨?_, ?_, ?_, ?_, ?_, rfl, rfl, rfl⟩
  · rw [time_cmp_eq_iff]
    constructor
    · rintro ⟨h1, h2⟩
      cases a; cases b
      simp only [Time.mk.injEq]
      exact ⟨shifted_hour_inj ha.1 hb.1 h1, h2⟩
    · rintro rfl; exact ⟨rfl, rfl⟩
  · rw [time_cmp_lt_iff, time_cmp_gt_iff]
    constructor <;> (rintro (h | ⟨h1, h2⟩) <;> [exact Or.inl h; exact Or.inr ⟨h1.symm, h2⟩])
  · rw [time_cmp_lt_iff, time_cmp_lt_iff, time_cmp_lt_iff]
    rintro (h | ⟨h1, h2⟩) (h' | ⟨h1', h2'⟩) <;> omega
  · have hne : Time.cmp ⟨4, 0⟩ a ≠ Ordering.gt := by
      intro hgt
      rw [time_cmp_gt_iff] at hgt
      have h24 := shifted_hour_lt_24 a
      have hsh : Time.shifted_hour ⟨4, 0⟩ = 0 := rfl
      have hm : Time.minute ⟨4, 0⟩ = 0 := rfl
      rcases hgt with h | ⟨h1, h2⟩ <;> omega
    unfold Time.le
    cases h : Time.cmp ⟨4, 0⟩ a <;> first | rfl | exact absurd h hne
  · have hne : Time.cmp a ⟨3, 59⟩ ≠ Ordering.gt := by
      intro hgt
      rw [time_cmp_gt_iff] at hgt
      have h24 := shifted_hour_lt_24 a
      have hsh : Time.shifted_hour ⟨3, 59⟩ = 23 := rfl
      have hm : Time.minute ⟨3, 59⟩ = 59 := rfl
      rcases hgt with h | ⟨h1, h2⟩ <;> omega
    unfold Time.le
    cases h : Time.cmp a ⟨3, 59⟩ <;> first | rfl | exact absurd h hne

/-- C7 (witness): the amended order theorem instantiated at the valid times
04:00, 05:00 and 23:00. -/
theorem c7_shifted_order_witness :
    (Time.cmp ⟨4, 0⟩ ⟨5, 0⟩ = Ordering.eq ↔ (⟨4, 0⟩ : Time) = ⟨5, 0⟩) ∧
    (Time.cmp ⟨4, 0⟩ ⟨5, 0⟩ = Ordering.lt ↔ Time.cmp ⟨5, 0⟩ ⟨4, 0⟩ = Ordering.gt) ∧
    (Time.cmp ⟨4, 0⟩ ⟨5, 0⟩ = Ordering.lt → Time.cmp ⟨5, 0⟩ ⟨23, 0⟩ = Ordering.lt →
      Time.cmp ⟨4, 0⟩ ⟨23, 0⟩ = Ordering.lt) ∧
    Time.le ⟨4, 0⟩ ⟨4, 0⟩ = true ∧
    Time.le ⟨4, 0⟩ ⟨3, 59⟩ = true ∧
    Time.cmp ⟨5, 0⟩ ⟨23, 0⟩ = Ordering.lt ∧
    Time.cmp ⟨23, 0⟩ ⟨2, 0⟩ = Ordering.lt ∧
    Time.cmp ⟨2, 0⟩ ⟨3, 59⟩ = Ordering.lt :=
  c7_shifted_order_on_valid_times ⟨4, 0⟩ ⟨5, 0⟩ ⟨23, 0⟩ (by decide) (by decide) (by decide)

lemma wd_add (r : DateRange) (k : Nat) :
    (r.start.addDays (k : Int)).weekdayIndex = (r.start.weekdayIndex + k) % 7 := by
  unfold Date.addDays Date.weekdayIndex
  rw [show r.start.days + (k : Int) - 1 = (r.start.days - 1) + (k : Int) from by ring,
    ← Int.emod_add_emod]
  have hy0 : 0 ≤ (r.start.days - 1) % 7 := Int.emod_nonneg _ (by norm_num)
  have hy7 : (r.start.days - 1) % 7 < 7 := Int.emod_lt_of_pos _ (by norm_num)
  generalize hgen : (r.start.days - 1) % 7 = y at hy0 hy7 ⊢
  omega

def weekdayBitsFor (S n : Nat) : Nat :=
  if S + n ≤ 6 then bit_range S (S + n)
  else bit_range S 6 ||| bit_range 0 ((S + n) % 7)

lemma weekday_bits_small :
    ∀ S < 7, ∀ n < 6,
      (weekdayBitsFor S n &&& 127 = weekdayBitsFor S n) ∧
      ∀ w < 7, ((weekdayBitsFor S n).testBit w = true ↔ ∃ k ≤ n, (S + k) % 7 = w) := by
  decide

lemma weekday_set_spec (r : DateRange)
    (h1 : r.start.days ≤ r.stop.days)
    (h2 : Date.MIN.days ≤ r.start.days) (h3 : r.stop.days ≤ Date.MAX.days) :
    ∃ s, r.weekday_set? = some s ∧
      ∀ w, w < 7 →
        (s.memIdx w = true ↔
          ∃ k, k ≤ (r.stop.days - r.start.days).toNat ∧
            (r.start.addDays (k : Int)).weekdayIndex = w) := by
  have hMIN : Date.MIN.days = -95746495 := rfl
  have hMAX : Date.MAX.days = 95745764 := rfl
  have hS : r.start.weekdayIndex < 7 := by unfold Date.weekdayIndex; omega
  have hpow : (2 : Int) ^ 32 = 4294967296 := by norm_num
  have hdiff : ((r.stop.days - r.start.days) % (2 ^ 32)).toNat
      = (r.stop.days - r.start.days).toNat := by
    rw [hpow]; omega
  simp only [DateRange.weekday_set?, hdiff]
  split_ifs with hall hsmall
  · refine ⟨WeekdaySet.all, rfl, fun w hw => ?_⟩
    constructor
    · intro _
      refine ⟨(7 + w - r.start.weekdayIndex) % 7, by omega, ?_⟩
      rw [wd_add]
      omega
    · intro _
      show Nat.testBit 127 w = true
      interval_cases w <;> rfl
  · obtain ⟨hmask, hbit⟩ := weekday_bits_small r.start.weekdayIndex hS
      (r.stop.days - r.start.days).toNat (by omega)
    have hbits : weekdayBitsFor r.start.weekdayIndex (r.stop.days - r.start.days).toNat
        = bit_range r.start.weekdayIndex
            (r.start.weekdayIndex + (r.stop.days - r.start.days).toNat) := by
      rw [weekdayBitsFor, if_pos hsmall]
    rw [← hbits, WeekdaySet.from_bits, if_pos hmask]
    refine ⟨_, rfl, fun w hw => ?_⟩
    simp only [wd_add]
    exact hbit w hw
  · obtain ⟨hmask, hbit⟩ := weekday_bits_small r.start.weekdayIndex hS
      (r.stop.days - r.start.days).toNat (by omega)
    have hbits : weekdayBitsFor r.start.weekdayIndex (r.stop.days - r.start.days).toNat
        = bit_range r.start.weekdayIndex 6 |||
            bit_range 0 ((r.start.weekdayIndex + (r.stop.days - r.start.days).toNat) % 7) := by
      rw [weekdayBitsFor, if_neg hsmall]
    rw [← hbits, WeekdaySet.from_bits, if_pos hmask]
    refine ⟨_, rfl, fun w hw => ?_⟩
    simp only [wd_add]
    exact hbit w hw

/-- C9: for a `DateRange` of valid dates (representable as `chrono` dates,
i.e. between `Date::MIN` and `Date::MAX`) with start ≤ end,
`DateRange::weekday_set` returns exactly the set of weekdays that occur at
least once in the range: weekday index `w` is in the returned set iff some
date `start + k` with `0 ≤ k ≤ end − start` has weekday `w` (so the full
seven-day set when the range spans 7 or more days, and otherwise the
weekdays from the start's weekday to the end's weekday inclusive, wrapping
past Sunday). -/
theorem c9_weekday_set_exact (r : DateRange)
    (hv : r.valid = true)
    (hlo : Date.MIN.le r.start = true) (hhi : r.stop.le Date.MAX = true) :
    ∀ w, w < 7 →
      (r.weekday_set.memIdx w = true ↔
        ∃ k, k ≤ (r.stop.days - r.start.days).toNat ∧
          (r.start.addDays (k : Int)).weekdayIndex = w) := by
  simp only [DateRange.valid, Date.le, Bool.and_eq_true, decide_eq_true_eq] at hv hlo hhi
  obtain ⟨s, hs, hspec⟩ := weekday_set_spec r hv.2 hlo hhi
  unfold DateRange.weekday_set
  rw [hs]
  exact hspec

/-- C9 (witness): the exact-weekday-set theorem instantiated at the
single-date range 08/05/2017–08/05/2017. -/
theorem c9_weekday_set_witness :
    range20170508.valid = true ∧
    Date.MIN.le range20170508.start = true ∧
    range20170508.stop.le Date.MAX = true ∧
    (∀ w, w < 7 →
      (range20170508.weekday_set.memIdx w = true ↔
        ∃ k, k ≤ (range20170508.stop.days - range20170508.start.days).toNat ∧
          (range20170508.start.addDays (k : Int)).weekdayIndex = w)) :=
  ⟨by decide, by decide, by decide,
    c9_weekday_set_exact range20170508 (by decide) (by decide) (by decide)⟩

/-- C10: for a `DateRange` of valid dates (within `chrono`'s representable
range) with start ≤ end, `DateRange::weekday_set` never panics: every bit
pattern passed to `WeekdaySet::from_bits` has only bits 0 through 6 set, so
`from_bits` returns `Some` and the `unwrap()` calls cannot fail (the
`Option`-valued model returns `some`). -/
theorem c10_weekday_set_never_panics (r : DateRange)
    (hv : r.valid = true)
    (hlo : Date.MIN.le r.start = true) (hhi : r.stop.le Date.MAX = true) :
    (r.weekday_set?).isSome = true := by
  simp only [DateRange.valid, Date.le, Bool.and_eq_true, decide_eq_true_eq] at hv hlo hhi
  obtain ⟨s, hs, _⟩ := weekday_set_spec r hv.2 hlo hhi
  rw [hs]
  rfl

/-- C10 (witness): the no-panic theorem instantiated at the wrapping range
Saturday 13/05/2017 – Monday 15/05/2017 (the branch that sets bits across
the Sunday boundary). -/
theorem c10_weekday_set_witness :
    (⟨⟨736462⟩, ⟨736464⟩⟩ : DateRange).valid = true ∧
    ((⟨⟨736462⟩, ⟨736464⟩⟩ : DateRange).weekday_set?).isSome = true :=
  ⟨by decide, c10_weekday_set_never_panics ⟨⟨736462⟩, ⟨736464⟩⟩
    (by decide) (by decide) (by decide)⟩

/-- One call of the per-actuator mutation API, carrying the wall-clock
instant of the call. -/
inductive Op where
  | set_default_state (s : ActuatorState) (now : DateTime)
  | add_time_slot (p : TimePeriod) (s : ActuatorState) (value : Bool) (now : DateTime)
  | remove_time_slot (id : Nat) (now : DateTime)
  | set_time_period (id : Nat) (p : TimePeriod) (now : DateTime)
  | set_enabled (id : Nat) (value : Bool) (now : DateTime)
  | set_actuator_state (id : Nat) (s : ActuatorState) (now : DateTime)
  | add_time_override (id : Nat) (p : TimePeriod) (now : DateTime)
  | remove_time_override (id : Nat) (oid : Nat) (now : DateTime)

/-- Dispatch one mutation call to the corresponding `Actuator` method; the
returned value of the id-returning calls is kept as `some id`. -/
def runOp (a : Actuator) : Op → Except RpcError (Option Nat) × Actuator
  | .set_default_state s now =>
    ((a.set_default_state s now).1.map (fun _ => none), (a.set_default_state s now).2)
  | .add_time_slot p s value now =>
    ((a.add_time_slot p s value now).1.map (fun id => some id),
      (a.add_time_slot p s value now).2)
  | .remove_time_slot id now =>
    ((a.remove_time_slot id now).1.map (fun _ => none), (a.remove_time_slot id now).2)
  | .set_time_period id p now =>
    ((a.time_slot_set_time_period id p now).1.map (fun _ => none),
      (a.time_slot_set_time_period id p now).2)
  | .set_enabled id value now =>
    ((a.time_slot_set_enabled id value now).1.map (fun _ => none),
      (a.time_slot_set_enabled id value now).2)
  | .set_actuator_state id s now =>
    ((a.time_slot_set_actuator_state id s now).1.map (fun _ => none),
      (a.time_slot_set_actuator_state id s now).2)
  | .add_time_override id p now =>
    ((a.time_slot_add_time_override id p now).1.map (fun id2 => some id2),
      (a.time_slot_add_time_override id p now).2)
  | .remove_time_override id oid now =>
    ((a.time_slot_remove_time_override id oid now).1.map (fun _ => none),
      (a.time_slot_remove_time_override id oid now).2)

lemma mapErase_lookup_none {α : Type} {k : Nat} {l : List (Nat × α)}
    (h : mapLookup k l = none) : mapErase k l = l := by
  induction l with
  | nil => rfl
  | cons kv rest ih =>
    unfold mapLookup at h
    unfold mapErase
    split_ifs with hk
    · rw [if_pos hk] at h; exact absurd h (by simp)
    · rw [if_neg hk] at h; rw [ih h]

lemma mapModify_lookup_self {α : Type} {k : Nat} {v : α} {l : List (Nat × α)}
    (h : mapLookup k l = some v) : mapModify k (fun _ => v) l = l := by
  induction l with
  | nil => rfl
  | cons kv rest ih =>
    unfold mapLookup at h
    unfold mapModify
    split_ifs with hk
    · cases kv
      rw [if_pos hk] at h
      simp_all
    · rw [if_neg hk] at h; rw [ih h]

section ErrorUnchanged

lemma err_set_default_state {a : Actuator} {s : ActuatorState} {now : DateTime}
    {e : RpcError} (h : (a.set_default_state s now).1 = .error e) :
    (a.set_default_state s now).2 = a := by
  unfold Actuator.set_default_state at h ⊢
  split_ifs at h ⊢ <;> simp_all

lemma err_add_time_slot {a : Actuator} {p : TimePeriod} {s : ActuatorState}
    {value : Bool} {now : DateTime} {e : RpcError}
    (h : (a.add_time_slot p s value now).1 = .error e) :
    (a.add_time_slot p s value now).2 = a := by
  unfold Actuator.add_time_slot at h ⊢
  split_ifs at h ⊢ <;> try rfl
  cases hfo : firstOverlap p a.timeslots <;> simp_all

end ErrorUnchanged

lemma err_remove_time_slot {a : Actuator} {id : Nat} {now : DateTime} {e : RpcError}
    (h : (a.remove_time_slot id now).1 = .error e) :
    (a.remove_time_slot id now).2 = a := by
  unfold Actuator.remove_time_slot at h ⊢
  cases hp : mapLookup id a.timeslots with
  | none =>
    have h1 : mapErase id a.timeslots = a.timeslots := mapErase_lookup_none hp
    simp_all
  | some ts => simp_all

lemma err_set_time_period {a : Actuator} {id : Nat} {p : TimePeriod} {now : DateTime}
    {e : RpcError} (h : (a.time_slot_set_time_period id p now).1 = .error e) :
    (a.time_slot_set_time_period id p now).2 = a := by
  unfold Actuator.time_slot_set_time_period at h ⊢
  cases hfo : firstOverlapExcept id p a.timeslots with
  | some k => simp_all
  | none =>
    cases hl : mapLookup id a.timeslots with
    | none => simp_all
    | some ts =>
      simp only [hfo, hl] at h ⊢
      split_ifs at h ⊢ <;> simp_all

lemma err_set_enabled {a : Actuator} {id : Nat} {value : Bool} {now : DateTime}
    {e : RpcError} (h : (a.time_slot_set_enabled id value now).1 = .error e) :
    (a.time_slot_set_enabled id value now).2 = a := by
  unfold Actuator.time_slot_set_enabled at h ⊢
  cases hl : mapLookup id a.timeslots with
  | none => simp_all
  | some ts =>
    simp only [hl] at h ⊢
    split_ifs at h ⊢ <;> simp_all

lemma err_set_actuator_state {a : Actuator} {id : Nat} {s : ActuatorState}
    {now : DateTime} {e : RpcError}
    (h : (a.time_slot_set_actuator_state id s now).1 = .error e) :
    (a.time_slot_set_actuator_state id s now).2 = a := by
  unfold Actuator.time_slot_set_actuator_state at h ⊢
  split_ifs at h ⊢ <;> try rfl
  cases hl : mapLookup id a.timeslots <;> simp_all

lemma err_add_time_override {a : Actuator} {id : Nat} {p : TimePeriod} {now : DateTime}
    {e : RpcError} (h : (a.time_slot_add_time_override id p now).1 = .error e) :
    (a.time_slot_add_time_override id p now).2 = a := by
  unfold Actuator.time_slot_add_time_override at h ⊢
  split_ifs at h ⊢ <;> try rfl
  cases hfo : firstOverlapExcept id p a.timeslots with
  | some k => simp_all
  | none =>
    cases hl : mapLookup id a.timeslots with
    | none => simp_all
    | some ts =>
      simp only [hfo, hl] at h ⊢
      cases ho : firstDateOverlap p ts.time_override <;> simp_all

lemma err_remove_time_override {a : Actuator} {id oid : Nat} {now : DateTime}
    {e : RpcError} (h : (a.time_slot_remove_time_override id oid now).1 = .error e) :
    (a.time_slot_remove_time_override id oid now).2 = a := by
  unfold Actuator.time_slot_remove_time_override at h ⊢
  cases hl : mapLookup id a.timeslots with
  | none => simp_all
  | some ts =>
    simp only [hl] at h ⊢
    cases ho : mapLookup oid ts.time_override with
    | some v => simp_all
    | none =>
      have h1 : mapErase oid ts.time_override = ts.time_override := mapErase_lookup_none ho
      have h2 : (fun (_ : TimeSlot) =>
          ({ ts with time_override := mapErase oid ts.time_override } : TimeSlot)) =
          (fun _ => ts) := by
        funext x
        rw [h1]
      simp only [h1] at h ⊢
      simp_all [mapModify_lookup_self hl]

/-- C3: every mutation of the actuator API that returns an error leaves the
actuator record — slot table with overrides and enabled flags, default
state, `next_timeslot_id`, `next_override_id` (and even the engine comm
record) — exactly as it was before the call. -/
theorem c3_errors_leave_actuator_unchanged (a : Actuator) (op : Op) (e : RpcError)
    (h : (runOp a op).1 = .error e) : (runOp a op).2 = a := by
  cases op with
  | set_default_state s now =>
    simp only [runOp, Except.map] at h ⊢
    split at h
    · rename_i err heq
      exact err_set_default_state heq
    · simp at h
  | add_time_slot p s value now =>
    simp only [runOp, Except.map] at h ⊢
    split at h
    · rename_i err heq
      exact err_add_time_slot heq
    · simp at h
  | remove_time_slot id now =>
    simp only [runOp, Except.map] at h ⊢
    split at h
    · rename_i err heq
      exact err_remove_time_slot heq
    · simp at h
  | set_time_period id p now =>
    simp only [runOp, Except.map] at h ⊢
    split at h
    · rename_i err heq
      exact err_set_time_period heq
    · simp at h
  | set_enabled id value now =>
    simp only [runOp, Except.map] at h ⊢
    split at h
    · rename_i err heq
      exact err_set_enabled heq
    · simp at h
  | set_actuator_state id s now =>
    simp only [runOp, Except.map] at h ⊢
    split at h
    · rename_i err heq
      exact err_set_actuator_state heq
    · simp at h
  | add_time_override id p now =>
    simp only [runOp, Except.map] at h ⊢
    split at h
    · rename_i err heq
      exact err_add_time_override heq
    · simp at h
  | remove_time_override id oid now =>
    simp only [runOp, Except.map] at h ⊢
    split at h
    · rename_i err heq
      exact err_remove_time_override heq
    · simp at h

/-- C3 (witness): removing a non-existent slot from a fresh actuator fails
with `InvalidArgument(TimeSlotId)` and leaves the actuator unchanged. -/
theorem c3_errors_witness :
    (runOp toggleActuator (.remove_time_slot 0 cegNow)).1 =
      .error (.InvalidArgument .TimeSlotId) ∧
    (runOp toggleActuator (.remove_time_slot 0 cegNow)).2 = toggleActuator :=
  ⟨rfl, c3_errors_leave_actuator_unchanged toggleActuator (.remove_time_slot 0 cegNow)
    (.InvalidArgument .TimeSlotId) rfl⟩

lemma firstOverlapExcept_none_iff {skip : Nat} {p : TimePeriod} {l : List (Nat × TimeSlot)} :
    firstOverlapExcept skip p l = none ↔
      ∀ kv ∈ l, kv.1 = skip ∨ kv.2.overlaps p = false := by
  induction l with
  | nil => simp [firstOverlapExcept]
  | cons kv rest ih =>
    unfold firstOverlapExcept
    split_ifs with h1 h2 <;> simp_all

lemma firstOverlapExcept_some {skip : Nat} {p : TimePeriod} {l : List (Nat × TimeSlot)}
    {k : Nat} (h : firstOverlapExcept skip p l = some k) :
    ∃ ts, (k, ts) ∈ l ∧ k ≠ skip ∧ ts.overlaps p = true := by
  induction l with
  | nil => simp [firstOverlapExcept] at h
  | cons kv rest ih =>
    unfold firstOverlapExcept at h
    split_ifs at h with h1 h2
    · obtain ⟨ts, hm, hs, ho⟩ := ih h
      exact ⟨ts, List.mem_cons_of_mem _ hm, hs, ho⟩
    · cases kv
      simp only [Option.some.injEq] at h
      subst h
      exact ⟨_, List.mem_cons_self _ _, h1, h2⟩
    · obtain ⟨ts, hm, hs, ho⟩ := ih h
      exact ⟨ts, List.mem_cons_of_mem _ hm, hs, ho⟩

lemma firstDateOverlap_none_iff {p : TimePeriod} {l : List (Nat × TimePeriod)} :
    firstDateOverlap p l = none ↔ ∀ kv ∈ l, kv.2.overlaps_dates p = false := by
  induction l with
  | nil => simp [firstDateOverlap]
  | cons kv rest ih =>
    unfold firstDateOverlap
    split_ifs with h1 <;> simp_all

lemma firstDateOverlap_some {p : TimePeriod} {l : List (Nat × TimePeriod)} {k : Nat}
    (h : firstDateOverlap p l = some k) :
    ∃ ov, (k, ov) ∈ l ∧ ov.overlaps_dates p = true := by
  induction l with
  | nil => simp [firstDateOverlap] at h
  | cons kv rest ih =>
    unfold firstDateOverlap at h
    split_ifs at h with h1
    · cases kv
      simp only [Option.some.injEq] at h
      subst h
      exact ⟨_, List.mem_cons_self _ _, h1⟩
    · obtain ⟨ov, hm, ho⟩ := ih h
      exact ⟨ov, List.mem_cons_of_mem _ hm, ho⟩

section C5Red

variable {a : Actuator} {slot_id : Nat} {p : TimePeriod}

lemma ato_reduce_slot_overlap (now : DateTime) {k : Nat} (hv : p.valid = true)
    (hfo : firstOverlapExcept slot_id p a.timeslots = some k) :
    a.time_slot_add_time_override slot_id p now = (.error (.TimeSlotOverlap k), a) := by
  unfold Actuator.time_slot_add_time_override
  simp [hv, hfo]

lemma ato_reduce_override_overlap (now : DateTime) {ts : TimeSlot} {oid : Nat}
    (hv : p.valid = true)
    (hfo : firstOverlapExcept slot_id p a.timeslots = none)
    (hts : mapLookup slot_id a.timeslots = some ts)
    (ho : firstDateOverlap p ts.time_override = some oid) :
    a.time_slot_add_time_override slot_id p now = (.error (.TimeOverrideOverlap oid), a) := by
  unfold Actuator.time_slot_add_time_override
  simp [hv, hfo, hts, ho]

lemma ato_reduce_ok (now : DateTime) {ts : TimeSlot} (hv : p.valid = true)
    (hfo : firstOverlapExcept slot_id p a.timeslots = none)
    (hts : mapLookup slot_id a.timeslots = some ts)
    (ho : firstDateOverlap p ts.time_override = none) :
    (a.time_slot_add_time_override slot_id p now).1 = .ok a.next_override_id ∧
    (a.time_slot_add_time_override slot_id p now).2.next_override_id
      = (a.next_override_id + 1) % 2 ^ 32 ∧
    (a.time_slot_add_time_override slot_id p now).2.timeslots =
      mapModify slot_id
        (fun _ => { ts with
          time_override := mapInsert a.next_override_id p ts.time_override })
        a.timeslots := by
  unfold Actuator.time_slot_add_time_override
  simp [hv, hfo, hts, ho]

end C5Red

/-- C5: for a valid period and an existing slot, `time_slot_add_time_override`
fails with `TimeSlotOverlap` iff some slot other than `slot_id` overlaps the
period (and any reported id is such a slot); when no other slot overlaps, it
fails with `TimeOverrideOverlap` iff some existing override of the slot
overlaps the period on dates alone (and any reported id is such an
override); and when neither overlap exists it inserts the override under the
freshly allocated `next_override_id`, which it returns and then
increments (with the u32 wrap `% 2 ^ 32`). -/
theorem c5_add_time_override_spec (a : Actuator) (slot_id : Nat) (p : TimePeriod)
    (ts : TimeSlot) (now : DateTime)
    (hv : p.valid = true) (hts : mapLookup slot_id a.timeslots = some ts) :
    ((∃ kv ∈ a.timeslots, kv.1 ≠ slot_id ∧ kv.2.overlaps p = true) ↔
      ∃ k, (a.time_slot_add_time_override slot_id p now).1 =
        .error (.TimeSlotOverlap k)) ∧
    (∀ k, (a.time_slot_add_time_override slot_id p now).1 =
        .error (.TimeSlotOverlap k) →
      ∃ ts2, (k, ts2) ∈ a.timeslots ∧ k ≠ slot_id ∧ ts2.overlaps p = true) ∧
    ((¬ ∃ kv ∈ a.timeslots, kv.1 ≠ slot_id ∧ kv.2.overlaps p = true) →
      (((∃ kv ∈ ts.time_override, kv.2.overlaps_dates p = true) ↔
        ∃ oid, (a.time_slot_add_time_override slot_id p now).1 =
          .error (.TimeOverrideOverlap oid)) ∧
      (∀ oid, (a.time_slot_add_time_override slot_id p now).1 =
          .error (.TimeOverrideOverlap oid) →
        ∃ ov, (oid, ov) ∈ ts.time_override ∧ ov.overlaps_dates p = true) ∧
      ((¬ ∃ kv ∈ ts.time_override, kv.2.overlaps_dates p = true) →
        (a.time_slot_add_time_override slot_id p now).1 = .ok a.next_override_id ∧
        (a.time_slot_add_time_override slot_id p now).2.next_override_id =
          (a.next_override_id + 1) % 2 ^ 32 ∧
        (a.time_slot_add_time_override slot_id p now).2.timeslots =
          mapModify slot_id
            (fun _ => { ts with
              time_override := mapInsert a.next_override_id p ts.time_override })
            a.timeslots))) := by
  cases hfo : firstOverlapExcept slot_id p a.timeslots with
  | some k =>
    have hred := ato_reduce_slot_overlap now hv hfo
    obtain ⟨ts2, hm, hne, hov⟩ := firstOverlapExcept_some hfo
    refine ⟨⟨fun _ => ⟨k, by rw [hred]⟩, fun _ => ⟨⟨k, ts2⟩, hm, hne, hov⟩⟩, ?_, ?_⟩
    · intro k2 hk2
      rw [hred] at hk2
      simp only [Prod.fst, Except.error.injEq, RpcError.TimeSlotOverlap.injEq] at hk2
      subst hk2
      exact ⟨ts2, hm, hne, hov⟩
    · intro hno
      exact absurd ⟨⟨k, ts2⟩, hm, hne, hov⟩ hno
  | none =>
    have hnone := firstOverlapExcept_none_iff.mp hfo
    have hnoslot : ¬ ∃ kv ∈ a.timeslots, kv.1 ≠ slot_id ∧ kv.2.overlaps p = true := by
      rintro ⟨kv, hm, hne, hov⟩
      rcases hnone kv hm with h | h
      · exact hne h
      · rw [hov] at h; simp at h
    cases ho : firstDateOverlap p ts.time_override with
    | some oid =>
      have hred := ato_reduce_override_overlap now hv hfo hts ho
      obtain ⟨ov, hm, hov⟩ := firstDateOverlap_some ho
      refine ⟨⟨fun hx => absurd hx hnoslot, ?_⟩, ?_, ?_⟩
      · rintro ⟨k, hk⟩
        rw [hred] at hk
        simp at hk
      · intro k hk
        rw [hred] at hk
        simp at hk
      · intro _
        refine ⟨⟨fun _ => ⟨oid, by rw [hred]⟩, fun _ => ⟨⟨oid, ov⟩, hm, hov⟩⟩, ?_, ?_⟩
        · intro oid2 hk
          rw [hred] at hk
          simp only [Prod.fst, Except.error.injEq, RpcError.TimeOverrideOverlap.injEq] at hk
          subst hk
          exact ⟨ov, hm, hov⟩
        · intro hno
          exact absurd ⟨⟨oid, ov⟩, hm, hov⟩ hno
    | none =>
      have hred := ato_reduce_ok now hv hfo hts ho
      have hnoov : ¬ ∃ kv ∈ ts.time_override, kv.2.overlaps_dates p = true := by
        rintro ⟨kv, hm, hov⟩
        have := firstDateOverlap_none_iff.mp ho kv hm
        rw [hov] at this; simp at this
      refine ⟨⟨fun hx => absurd hx hnoslot, ?_⟩, ?_, ?_⟩
      · rintro ⟨k, hk⟩
        rw [hred.1] at hk
        simp at hk
      · intro k hk
        rw [hred.1] at hk
        simp at hk
      · intro _
        refine ⟨⟨fun hx => absurd hx hnoov, ?_⟩, ?_, fun _ => hred⟩
        · rintro ⟨oid, hk⟩
          rw [hred.1] at hk
          simp at hk
        · intro oid hk
          rw [hred.1] at hk
          simp at hk

/-- The slot stored as id 0 after the first S1 step. -/
def c5Slot : TimeSlot := TimeSlot.new true (ActuatorState.Toggle true) s1PeriodA

/-- Override period used by the C5 witness: 10:00–11:00 on 08/05/2017. -/
def c5OverridePeriod : TimePeriod := ⟨⟨⟨10, 0⟩, ⟨11, 0⟩⟩, range20170508, WeekdaySet.all⟩

/-- C5 (witness): the override-addition theorem instantiated on an actuator
holding only slot 0; with no other slot and no existing override, the call
returns the fresh override id 0 and bumps the override counter. -/
theorem c5_add_time_override_witness :
    c5OverridePeriod.valid = true ∧
    mapLookup 0 (s1Step1 cegNow).2.timeslots = some c5Slot ∧
    ((s1Step1 cegNow).2.time_slot_add_time_override 0 c5OverridePeriod cegNow).1 =
      .ok 0 ∧
    ((s1Step1 cegNow).2.time_slot_add_time_override 0 c5OverridePeriod
      cegNow).2.next_override_id = 1 := by
  have h := c5_add_time_override_spec (s1Step1 cegNow).2 0 c5OverridePeriod c5Slot
    cegNow (by decide) (by with_unfolding_all rfl)
  have hno1 : ¬ ∃ kv ∈ (s1Step1 cegNow).2.timeslots,
      kv.1 ≠ 0 ∧ kv.2.overlaps c5OverridePeriod = true := by decide
  have hno2 : ¬ ∃ kv ∈ c5Slot.time_override,
      kv.2.overlaps_dates c5OverridePeriod = true := by decide
  obtain ⟨hok, hnext, hsl⟩ := (h.2.2 hno1).2.2 hno2
  refine ⟨by decide, by with_unfolding_all rfl, hok, ?_⟩
  rw [hnext]
  with_unfolding_all rfl

section C8Lemmas

variable {a : Actuator} {now : DateTime}

lemma counters_set_default_state {s : ActuatorState} :
    (a.set_default_state s now).2.next_timeslot_id = a.next_timeslot_id ∧
    (a.set_default_state s now).2.next_override_id = a.next_override_id := by
  unfold Actuator.set_default_state
  constructor <;> (dsimp only; repeat' split) <;> rfl

lemma counters_remove_time_slot {id : Nat} :
    (a.remove_time_slot id now).2.next_timeslot_id = a.next_timeslot_id ∧
    (a.remove_time_slot id now).2.next_override_id = a.next_override_id := by
  unfold Actuator.remove_time_slot
  constructor <;> (dsimp only; repeat' split) <;> rfl

lemma counters_set_time_period {id : Nat} {p : TimePeriod} :
    (a.time_slot_set_time_period id p now).2.next_timeslot_id = a.next_timeslot_id ∧
    (a.time_slot_set_time_period id p now).2.next_override_id = a.next_override_id := by
  unfold Actuator.time_slot_set_time_period
  constructor <;> (dsimp only; repeat' split) <;> rfl

lemma counters_set_enabled {id : Nat} {value : Bool} :
    (a.time_slot_set_enabled id value now).2.next_timeslot_id = a.next_timeslot_id ∧
    (a.time_slot_set_enabled id value now).2.next_override_id = a.next_override_id := by
  unfold Actuator.time_slot_set_enabled
  constructor <;> (dsimp only; repeat' split) <;> rfl

lemma counters_set_actuator_state {id : Nat} {s : ActuatorState} :
    (a.time_slot_set_actuator_state id s now).2.next_timeslot_id = a.next_timeslot_id ∧
    (a.time_slot_set_actuator_state id s now).2.next_override_id = a.next_override_id := by
  unfold Actuator.time_slot_set_actuator_state
  constructor <;> (dsimp only; repeat' split) <;> rfl

lemma counters_remove_time_override {id oid : Nat} :
    (a.time_slot_remove_time_override id oid now).2.next_timeslot_id
      = a.next_timeslot_id ∧
    (a.time_slot_remove_time_override id oid now).2.next_override_id
      = a.next_override_id := by
  unfold Actuator.time_slot_remove_time_override
  constructor <;> (dsimp only; repeat' split) <;> rfl

lemma ats_success {p : TimePeriod} {s : ActuatorState} {v : Bool} {id : Nat}
    (h : (a.add_time_slot p s v now).1 = .ok id) :
    id = a.next_timeslot_id ∧
    (a.add_time_slot p s v now).2.next_timeslot_id
      = (a.next_timeslot_id + 1) % 2 ^ 32 ∧
    (a.add_time_slot p s v now).2.next_override_id = a.next_override_id := by
  unfold Actuator.add_time_slot at h ⊢
  split_ifs at h ⊢ <;> try simp_all
  cases hfo : firstOverlap p a.timeslots <;> simp_all

lemma counters_add_time_slot {p : TimePeriod} {s : ActuatorState} {v : Bool} :
    (a.add_time_slot p s v now).2.next_override_id = a.next_override_id := by
  unfold Actuator.add_time_slot
  dsimp only
  repeat' split
  all_goals rfl

lemma ato_success2 {slot_id : Nat} {p : TimePeriod} {id : Nat}
    (h : (a.time_slot_add_time_override slot_id p now).1 = .ok id) :
    id = a.next_override_id ∧
    (a.time_slot_add_time_override slot_id p now).2.next_override_id
      = (a.next_override_id + 1) % 2 ^ 32 ∧
    (a.time_slot_add_time_override slot_id p now).2.next_timeslot_id
      = a.next_timeslot_id := by
  unfold Actuator.time_slot_add_time_override at h ⊢
  split_ifs at h ⊢ <;> try simp_all
  cases hfo : firstOverlapExcept slot_id p a.timeslots <;> try simp_all
  cases hl : mapLookup slot_id a.timeslots <;> try simp_all
  cases ho : firstDateOverlap p _ <;> simp_all

lemma counters_add_time_override {slot_id : Nat} {p : TimePeriod} :
    (a.time_slot_add_time_override slot_id p now).2.next_timeslot_id
      = a.next_timeslot_id := by
  unfold Actuator.time_slot_add_time_override
  dsimp only
  repeat' split
  all_goals rfl

end C8Lemmas

/-- Fold a list of mutation calls over an actuator. -/
def runTrace (a : Actuator) : List Op → Actuator
  | [] => a
  | op :: rest => runTrace (runOp a op).2 rest

/-- The slot id returned by a call, when the call is a successful
`add_time_slot`. -/
def opIssuedSlotId (a : Actuator) : Op → Option Nat
  | .add_time_slot p s v now =>
    match (a.add_time_slot p s v now).1 with
    | .ok id => some id
    | .error _ => none
  | _ => none

/-- The override id returned by a call, when the call is a successful
`time_slot_add_time_override`. -/
def opIssuedOverrideId (a : Actuator) : Op → Option Nat
  | .add_time_override id p now =>
    match (a.time_slot_add_time_override id p now).1 with
    | .ok oid => some oid
    | .error _ => none
  | _ => none

/-- All slot ids returned by successful `add_time_slot` calls of a trace, in
call order. -/
def issuedSlotIds (a : Actuator) : List Op → List Nat
  | [] => []
  | op :: rest =>
    match opIssuedSlotId a op with
    | some id => id :: issuedSlotIds (runOp a op).2 rest
    | none => issuedSlotIds (runOp a op).2 rest

/-- All override ids returned by successful `time_slot_add_time_override`
calls of a trace, in call order. -/
def issuedOverrideIds (a : Actuator) : List Op → List Nat
  | [] => []
  | op :: rest =>
    match opIssuedOverrideId a op with
    | some id => id :: issuedOverrideIds (runOp a op).2 rest
    | none => issuedOverrideIds (runOp a op).2 rest

lemma step_slot_counter_none {a : Actuator} {op : Op}
    (h : opIssuedSlotId a op = none) :
    (runOp a op).2.next_timeslot_id = a.next_timeslot_id := by
  cases op with
  | add_time_slot p s v now =>
    simp only [opIssuedSlotId] at h
    cases hr : (a.add_time_slot p s v now).1 with
    | ok rid => rw [hr] at h; simp at h
    | error e => exact congrArg Actuator.next_timeslot_id (err_add_time_slot hr)
  | set_default_state s now => exact counters_set_default_state.1
  | remove_time_slot id2 now => exact counters_remove_time_slot.1
  | set_time_period id2 p now => exact counters_set_time_period.1
  | set_enabled id2 v now => exact counters_set_enabled.1
  | set_actuator_state id2 s now => exact counters_set_actuator_state.1
  | add_time_override id2 p now => exact counters_add_time_override
  | remove_time_override id2 oid now => exact counters_remove_time_override.1

lemma step_override_counter_none {a : Actuator} {op : Op}
    (h : opIssuedOverrideId a op = none) :
    (runOp a op).2.next_override_id = a.next_override_id := by
  cases op with
  | add_time_override id2 p now =>
    simp only [opIssuedOverrideId] at h
    cases hr : (a.time_slot_add_time_override id2 p now).1 with
    | ok rid => rw [hr] at h; simp at h
    | error e => exact congrArg Actuator.next_override_id (err_add_time_override hr)
  | set_default_state s now => exact counters_set_default_state.2
  | add_time_slot p s v now => exact counters_add_time_slot
  | remove_time_slot id2 now => exact counters_remove_time_slot.2
  | set_time_period id2 p now => exact counters_set_time_period.2
  | set_enabled id2 v now => exact counters_set_enabled.2
  | set_actuator_state id2 s now => exact counters_set_actuator_state.2
  | remove_time_override id2 oid now => exact counters_remove_time_override.2

lemma issued_slot_id_spec {a : Actuator} {op : Op} {id : Nat}
    (h : opIssuedSlotId a op = some id) :
    id = a.next_timeslot_id ∧
    (runOp a op).2.next_timeslot_id = (a.next_timeslot_id + 1) % 2 ^ 32 := by
  cases op with
  | add_time_slot p s v now =>
    simp only [opIssuedSlotId] at h
    cases hr : (a.add_time_slot p s v now).1 with
    | ok rid =>
      rw [hr] at h
      simp only [Option.some.injEq] at h
      subst h
      obtain ⟨h1, h2, _⟩ := ats_success hr
      exact ⟨h1, h2⟩
    | error e => rw [hr] at h; simp at h
  | set_default_state s now => simp [opIssuedSlotId] at h
  | remove_time_slot id2 now => simp [opIssuedSlotId] at h
  | set_time_period id2 p now => simp [opIssuedSlotId] at h
  | set_enabled id2 v now => simp [opIssuedSlotId] at h
  | set_actuator_state id2 s now => simp [opIssuedSlotId] at h
  | add_time_override id2 p now => simp [opIssuedSlotId] at h
  | remove_time_override id2 oid now => simp [opIssuedSlotId] at h

lemma issued_override_id_spec {a : Actuator} {op : Op} {id : Nat}
    (h : opIssuedOverrideId a op = some id) :
    id = a.next_override_id ∧
    (runOp a op).2.next_override_id = (a.next_override_id + 1) % 2 ^ 32 := by
  cases op with
  | add_time_override id2 p now =>
    simp only [opIssuedOverrideId] at h
    cases hr : (a.time_slot_add_time_override id2 p now).1 with
    | ok rid =>
      rw [hr] at h
      simp only [Option.some.injEq] at h
      subst h
      obtain ⟨h1, h2, _⟩ := ato_success2 hr
      exact ⟨h1, h2⟩
    | error e => rw [hr] at h; simp at h
  | set_default_state s now => simp [opIssuedOverrideId] at h
  | remove_time_slot id2 now => simp [opIssuedOverrideId] at h
  | set_time_period id2 p now => simp [opIssuedOverrideId] at h
  | set_enabled id2 v now => simp [opIssuedOverrideId] at h
  | set_actuator_state id2 s now => simp [opIssuedOverrideId] at h
  | add_time_slot p s v now => simp [opIssuedOverrideId] at h
  | remove_time_override id2 oid now => simp [opIssuedOverrideId] at h

/-- The id sequence issued by a wrapping u32 counter that starts at `c`: the
next `n` counter values, each reduced `% 2 ^ 32`. -/
def idSeq (c : Nat) : Nat → List Nat
  | 0 => []
  | n + 1 => c % 2 ^ 32 :: idSeq (c + 1) n

lemma idSeq_length : ∀ (n c : Nat), (idSeq c n).length = n := by
  intro n
  induction n with
  | zero => intro c; rfl
  | succ n ih =>
    intro c
    simp [idSeq, ih (c + 1)]

lemma idSeq_congr : ∀ (n c1 c2 : Nat), c1 % 2 ^ 32 = c2 % 2 ^ 32 →
    idSeq c1 n = idSeq c2 n := by
  intro n
  induction n with
  | zero => intro c1 c2 h; rfl
  | succ n ih =>
    intro c1 c2 h
    have h2 : (c1 + 1) % 2 ^ 32 = (c2 + 1) % 2 ^ 32 := by
      rw [← Nat.mod_add_mod, h, Nat.mod_add_mod]
    simp only [idSeq, h, ih (c1 + 1) (c2 + 1) h2]

lemma idSeq_snoc : ∀ (n c : Nat),
    idSeq c (n + 1) = idSeq c n ++ [(c + n) % 2 ^ 32] := by
  intro n
  induction n with
  | zero =>
    intro c
    simp [idSeq]
  | succ n ih =>
    intro c
    have hstep : idSeq c (n + 1 + 1) = c % 2 ^ 32 :: idSeq (c + 1) (n + 1) := rfl
    have hstep2 : idSeq c (n + 1) = c % 2 ^ 32 :: idSeq (c + 1) n := rfl
    have hc : c + 1 + n = c + (n + 1) := by omega
    rw [hstep, ih (c + 1), hstep2, List.cons_append, hc]

lemma idSeq_mem_lb : ∀ (n c : Nat), c + n ≤ 2 ^ 32 → ∀ x ∈ idSeq c n, c ≤ x := by
  intro n
  induction n with
  | zero =>
    intro c hc x hx
    simp [idSeq] at hx
  | succ n ih =>
    intro c hc x hx
    have hclt : c < 2 ^ 32 := by omega
    rw [show idSeq c (n + 1) = c % 2 ^ 32 :: idSeq (c + 1) n from rfl,
      Nat.mod_eq_of_lt hclt] at hx
    rcases List.mem_cons.mp hx with rfl | hx2
    · exact le_refl _
    · exact le_trans (Nat.le_succ c) (ih (c + 1) (by omega) x hx2)

lemma idSeq_pairwise : ∀ (n c : Nat), c + n ≤ 2 ^ 32 →
    List.Pairwise (· < ·) (idSeq c n) := by
  intro n
  induction n with
  | zero =>
    intro c hc
    exact List.Pairwise.nil
  | succ n ih =>
    intro c hc
    have hclt : c < 2 ^ 32 := by omega
    rw [show idSeq c (n + 1) = c % 2 ^ 32 :: idSeq (c + 1) n from rfl,
      Nat.mod_eq_of_lt hclt]
    refine List.Pairwise.cons (fun x hx => ?_) (ih (c + 1) (by omega))
    have := idSeq_mem_lb n (c + 1) (by omega) x hx
    omega

lemma runTrace_append (p q : List Op) (a : Actuator) :
    runTrace a (p ++ q) = runTrace (runTrace a p) q := by
  induction p generalizing a with
  | nil => rfl
  | cons op rest ih =>
    show runTrace (runOp a op).2 (rest ++ q) = _
    rw [ih]
    rfl

lemma issuedSlotIds_append (p q : List Op) (a : Actuator) :
    issuedSlotIds a (p ++ q)
      = issuedSlotIds a p ++ issuedSlotIds (runTrace a p) q := by
  induction p generalizing a with
  | nil => rfl
  | cons op rest ih =>
    have hrt : runTrace a (op :: rest) = runTrace (runOp a op).2 rest := rfl
    cases hio : opIssuedSlotId a op with
    | some id =>
      have h1 : issuedSlotIds a ((op :: rest) ++ q)
          = id :: issuedSlotIds (runOp a op).2 (rest ++ q) := by
        simp only [List.cons_append, issuedSlotIds, hio]
        rfl
      have h2 : issuedSlotIds a (op :: rest)
          = id :: issuedSlotIds (runOp a op).2 rest := by
        simp only [issuedSlotIds, hio]
      rw [h1, h2, ih, hrt, List.cons_append]
    | none =>
      have h1 : issuedSlotIds a ((op :: rest) ++ q)
          = issuedSlotIds (runOp a op).2 (rest ++ q) := by
        simp only [List.cons_append, issuedSlotIds, hio]
        rfl
      have h2 : issuedSlotIds a (op :: rest)
          = issuedSlotIds (runOp a op).2 rest := by
        simp only [issuedSlotIds, hio]
      rw [h1, h2, ih, hrt]

lemma issuedOverrideIds_append (p q : List Op) (a : Actuator) :
    issuedOverrideIds a (p ++ q)
      = issuedOverrideIds a p ++ issuedOverrideIds (runTrace a p) q := by
  induction p generalizing a with
  | nil => rfl
  | cons op rest ih =>
    have hrt : runTrace a (op :: rest) = runTrace (runOp a op).2 rest := rfl
    cases hio : opIssuedOverrideId a op with
    | some id =>
      have h1 : issuedOverrideIds a ((op :: rest) ++ q)
          = id :: issuedOverrideIds (runOp a op).2 (rest ++ q) := by
        simp only [List.cons_append, issuedOverrideIds, hio]
        rfl
      have h2 : issuedOverrideIds a (op :: rest)
          = id :: issuedOverrideIds (runOp a op).2 rest := by
        simp only [issuedOverrideIds, hio]
      rw [h1, h2, ih, hrt, List.cons_append]
    | none =>
      have h1 : issuedOverrideIds a ((op :: rest) ++ q)
          = issuedOverrideIds (runOp a op).2 (rest ++ q) := by
        simp only [List.cons_append, issuedOverrideIds, hio]
        rfl
      have h2 : issuedOverrideIds a (op :: rest)
          = issuedOverrideIds (runOp a op).2 rest := by
        simp only [issuedOverrideIds, hio]
      rw [h1, h2, ih, hrt]

lemma issued_slot_char (ops : List Op) : ∀ (a : Actuator),
    a.next_timeslot_id < 2 ^ 32 →
    issuedSlotIds a ops
      = idSeq a.next_timeslot_id (issuedSlotIds a ops).length ∧
    (runTrace a ops).next_timeslot_id
      = (a.next_timeslot_id + (issuedSlotIds a ops).length) % 2 ^ 32 := by
  induction ops with
  | nil =>
    intro a ha
    refine ⟨rfl, ?_⟩
    show a.next_timeslot_id = (a.next_timeslot_id + (0 : Nat)) % 2 ^ 32
    rw [Nat.add_zero, Nat.mod_eq_of_lt ha]
  | cons op rest ih =>
    intro a ha
    have hrt : runTrace a (op :: rest) = runTrace (runOp a op).2 rest := rfl
    cases hio : opIssuedSlotId a op with
    | none =>
      have hstep := step_slot_counter_none hio
      have hcons : issuedSlotIds a (op :: rest)
          = issuedSlotIds (runOp a op).2 rest := by
        simp only [issuedSlotIds, hio]
      obtain ⟨ih1, ih2⟩ := ih (runOp a op).2 (by rw [hstep]; exact ha)
      constructor
      · rw [hcons, ih1]
        simp only [idSeq_length]
        rw [hstep]
      · rw [hrt, hcons, ih2, hstep]
    | some id =>
      obtain ⟨hid, hstep⟩ := issued_slot_id_spec hio
      have hcons : issuedSlotIds a (op :: rest)
          = id :: issuedSlotIds (runOp a op).2 rest := by
        simp only [issuedSlotIds, hio]
      have hlt : (runOp a op).2.next_timeslot_id < 2 ^ 32 := by
        rw [hstep]
        exact Nat.mod_lt _ (by norm_num)
      obtain ⟨ih1, ih2⟩ := ih (runOp a op).2 hlt
      have hlen : (issuedSlotIds a (op :: rest)).length
          = (issuedSlotIds (runOp a op).2 rest).length + 1 := by
        rw [hcons, List.length_cons]
      constructor
      · have hseq : idSeq a.next_timeslot_id
            ((issuedSlotIds (runOp a op).2 rest).length + 1)
            = a.next_timeslot_id % 2 ^ 32
              :: idSeq (a.next_timeslot_id + 1)
                  (issuedSlotIds (runOp a op).2 rest).length := rfl
        rw [hlen, hcons, hseq, Nat.mod_eq_of_lt ha, List.cons.injEq]
        refine ⟨hid, ?_⟩
        rw [ih1]
        simp only [idSeq_length]
        rw [hstep]
        exact idSeq_congr _ _ _ (Nat.mod_mod_of_dvd _ dvd_rfl)
      · rw [hlen, hrt, ih2, hstep, Nat.mod_add_mod]
        congr 1
        omega

lemma issued_override_char (ops : List Op) : ∀ (a : Actuator),
    a.next_override_id < 2 ^ 32 →
    issuedOverrideIds a ops
      = idSeq a.next_override_id (issuedOverrideIds a ops).length ∧
    (runTrace a ops).next_override_id
      = (a.next_override_id + (issuedOverrideIds a ops).length) % 2 ^ 32 := by
  induction ops with
  | nil =>
    intro a ha
    refine ⟨rfl, ?_⟩
    show a.next_override_id = (a.next_override_id + (0 : Nat)) % 2 ^ 32
    rw [Nat.add_zero, Nat.mod_eq_of_lt ha]
  | cons op rest ih =>
    intro a ha
    have hrt : runTrace a (op :: rest) = runTrace (runOp a op).2 rest := rfl
    cases hio : opIssuedOverrideId a op with
    | none =>
      have hstep := step_override_counter_none hio
      have hcons : issuedOverrideIds a (op :: rest)
          = issuedOverrideIds (runOp a op).2 rest := by
        simp only [issuedOverrideIds, hio]
      obtain ⟨ih1, ih2⟩ := ih (runOp a op).2 (by rw [hstep]; exact ha)
      constructor
      · rw [hcons, ih1]
        simp only [idSeq_length]
        rw [hstep]
      · rw [hrt, hcons, ih2, hstep]
    | some id =>
      obtain ⟨hid, hstep⟩ := issued_override_id_spec hio
      have hcons : issuedOverrideIds a (op :: rest)
          = id :: issuedOverrideIds (runOp a op).2 rest := by
        simp only [issuedOverrideIds, hio]
      have hlt : (runOp a op).2.next_override_id < 2 ^ 32 := by
        rw [hstep]
        exact Nat.mod_lt _ (by norm_num)
      obtain ⟨ih1, ih2⟩ := ih (runOp a op).2 hlt
      have hlen : (issuedOverrideIds a (op :: rest)).length
          = (issuedOverrideIds (runOp a op).2 rest).length + 1 := by
        rw [hcons, List.length_cons]
      constructor
      · have hseq : idSeq a.next_override_id
            ((issuedOverrideIds (runOp a op).2 rest).length + 1)
            = a.next_override_id % 2 ^ 32
              :: idSeq (a.next_override_id + 1)
                  (issuedOverrideIds (runOp a op).2 rest).length := rfl
        rw [hlen, hcons, hseq, Nat.mod_eq_of_lt ha, List.cons.injEq]
        refine ⟨hid, ?_⟩
        rw [ih1]
        simp only [idSeq_length]
        rw [hstep]
        exact idSeq_congr _ _ _ (Nat.mod_mod_of_dvd _ dvd_rfl)
      · rw [hlen, hrt, ih2, hstep, Nat.mod_add_mod]
        congr 1
        omega

/-- C8 (amended): the u32 id counters wrap at `2 ^ 32`, so freshness is
bounded. Starting from a fresh actuator (both counters 0), along any trace
of mutation calls that issues fewer than `2 ^ 32` slot ids and fewer than
`2 ^ 32` override ids, `next_timeslot_id` and `next_override_id` never
decrease between a prefix of the trace and any longer prefix, the slot ids
returned by successful `add_time_slot` calls are strictly increasing in
call order, likewise the override ids returned by successful
`time_slot_add_time_override` calls, and no issued id is ever issued
twice. -/
theorem c8_ids_fresh_before_wrap (a : Actuator) (ops : List Op)
    (ha : a.next_timeslot_id = 0) (hb : a.next_override_id = 0)
    (hs : (issuedSlotIds a ops).length < 2 ^ 32)
    (ho : (issuedOverrideIds a ops).length < 2 ^ 32) :
    (∀ p q r, ops = p ++ (q ++ r) →
      (runTrace a p).next_timeslot_id
        ≤ (runTrace a (p ++ q)).next_timeslot_id ∧
      (runTrace a p).next_override_id
        ≤ (runTrace a (p ++ q)).next_override_id) ∧
    List.Pairwise (· < ·) (issuedSlotIds a ops) ∧
    List.Pairwise (· < ·) (issuedOverrideIds a ops) ∧
    (issuedSlotIds a ops).Nodup ∧
    (issuedOverrideIds a ops).Nodup := by
  have ha32 : a.next_timeslot_id < 2 ^ 32 := by rw [ha]; norm_num
  have hb32 : a.next_override_id < 2 ^ 32 := by rw [hb]; norm_num
  have hslen : ∀ u v : List Op, ops = u ++ v →
      (issuedSlotIds a u).length ≤ (issuedSlotIds a ops).length := by
    intro u v huv
    rw [huv, issuedSlotIds_append, List.length_append]
    exact Nat.le_add_right _ _
  have holen : ∀ u v : List Op, ops = u ++ v →
      (issuedOverrideIds a u).length ≤ (issuedOverrideIds a ops).length := by
    intro u v huv
    rw [huv, issuedOverrideIds_append, List.length_append]
    exact Nat.le_add_right _ _
  have hcount : ∀ u v : List Op, ops = u ++ v →
      (runTrace a u).next_timeslot_id = (issuedSlotIds a u).length ∧
      (runTrace a u).next_override_id = (issuedOverrideIds a u).length := by
    intro u v huv
    have h1 : (issuedSlotIds a u).length < 2 ^ 32 :=
      lt_of_le_of_lt (hslen u v huv) hs
    have h2 : (issuedOverrideIds a u).length < 2 ^ 32 :=
      lt_of_le_of_lt (holen u v huv) ho
    constructor
    · rw [(issued_slot_char u a ha32).2, ha, Nat.zero_add, Nat.mod_eq_of_lt h1]
    · rw [(issued_override_char u a hb32).2, hb, Nat.zero_add,
        Nat.mod_eq_of_lt h2]
  refine ⟨?_, ?_, ?_, ?_, ?_⟩
  · intro p q r hpqr
    have hpqr2 : ops = (p ++ q) ++ r := by rw [hpqr, List.append_assoc]
    obtain ⟨e1, e2⟩ := hcount p (q ++ r) hpqr
    obtain ⟨e3, e4⟩ := hcount (p ++ q) r hpqr2
    have hp1 : (issuedSlotIds a p).length
        ≤ (issuedSlotIds a (p ++ q)).length := by
      rw [issuedSlotIds_append, List.length_append]
      exact Nat.le_add_right _ _
    have hp2 : (issuedOverrideIds a p).length
        ≤ (issuedOverrideIds a (p ++ q)).length := by
      rw [issuedOverrideIds_append, List.length_append]
      exact Nat.le_add_right _ _
    rw [e1, e2, e3, e4]
    exact ⟨hp1, hp2⟩
  · rw [(issued_slot_char ops a ha32).1, ha]
    refine idSeq_pairwise _ 0 ?_
    rw [Nat.zero_add]
    exact le_of_lt hs
  · rw [(issued_override_char ops a hb32).1, hb]
    refine idSeq_pairwise _ 0 ?_
    rw [Nat.zero_add]
    exact le_of_lt ho
  · rw [(issued_slot_char ops a ha32).1, ha]
    refine (idSeq_pairwise _ 0 ?_).imp Nat.ne_of_lt
    rw [Nat.zero_add]
    exact le_of_lt hs
  · rw [(issued_override_char ops a hb32).1, hb]
    refine (idSeq_pairwise _ 0 ?_).imp Nat.ne_of_lt
    rw [Nat.zero_add]
    exact le_of_lt ho

/-- The one-call trace used by the C8 witness: adding the S1 slot A. -/
def c8Ops : List Op :=
  [Op.add_time_slot s1PeriodA (ActuatorState.Toggle true) true cegNow]

/-- C8 (witness): the bounded-freshness theorem instantiated on a fresh
Toggle actuator and the one-call trace that adds slot A; it issues the
single slot id 0 and no override id, well below the wrap. -/
theorem c8_ids_fresh_witness :
    toggleActuator.next_timeslot_id = 0 ∧
    toggleActuator.next_override_id = 0 ∧
    (issuedSlotIds toggleActuator c8Ops).length < 2 ^ 32 ∧
    (issuedOverrideIds toggleActuator c8Ops).length < 2 ^ 32 ∧
    ((∀ p q r, c8Ops = p ++ (q ++ r) →
      (runTrace toggleActuator p).next_timeslot_id
        ≤ (runTrace toggleActuator (p ++ q)).next_timeslot_id ∧
      (runTrace toggleActuator p).next_override_id
        ≤ (runTrace toggleActuator (p ++ q)).next_override_id) ∧
    List.Pairwise (· < ·) (issuedSlotIds toggleActuator c8Ops) ∧
    List.Pairwise (· < ·) (issuedOverrideIds toggleActuator c8Ops) ∧
    (issuedSlotIds toggleActuator c8Ops).Nodup ∧
    (issuedOverrideIds toggleActuator c8Ops).Nodup) :=
  ⟨rfl, rfl, by decide, by decide,
    c8_ids_fresh_before_wrap toggleActuator c8Ops rfl rfl (by decide) (by decide)⟩

/-- One add/remove round of the wrap-around trace: add the S1 slot A (this
always succeeds on an empty slot table) and remove it again under the id
the add just returned. -/
def wrapRound (id : Nat) : List Op :=
  [Op.add_time_slot s1PeriodA (ActuatorState.Toggle true) true cegNow,
   Op.remove_time_slot id cegNow]

/-- The first `n` add/remove rounds of the wrap-around trace; round `n`
removes the slot under the id the counter holds at that point,
`n % 2 ^ 32`. -/
def wrapTrace : Nat → List Op
  | 0 => []
  | n + 1 => wrapTrace n ++ wrapRound (n % 2 ^ 32)

lemma wrapTrace_succ (n : Nat) :
    wrapTrace (n + 1) = wrapTrace n ++ wrapRound (n % 2 ^ 32) := rfl

lemma add_s1A_on_empty (a : Actuator) (now : DateTime)
    (hinfo : a.info = toggleActuator.info) (hts : a.timeslots = []) :
    (a.add_time_slot s1PeriodA (ActuatorState.Toggle true) true now).1
      = .ok a.next_timeslot_id ∧
    (a.add_time_slot s1PeriodA (ActuatorState.Toggle true) true now).2.info
      = a.info ∧
    (a.add_time_slot s1PeriodA (ActuatorState.Toggle true) true now).2.timeslots
      = [(a.next_timeslot_id,
          TimeSlot.new true (ActuatorState.Toggle true) s1PeriodA)] ∧
    (a.add_time_slot s1PeriodA
        (ActuatorState.Toggle true) true now).2.next_timeslot_id
      = (a.next_timeslot_id + 1) % 2 ^ 32 := by
  have hvp : s1PeriodA.valid = true := by decide
  have hvs : a.valid_state (ActuatorState.Toggle true) = true := by
    unfold Actuator.valid_state
    rw [hinfo]
    rfl
  unfold Actuator.add_time_slot
  rw [hts]
  simp [hvp, hvs, firstOverlap, mapInsert]

lemma remove_singleton (a : Actuator) (now : DateTime) (k : Nat) (ts : TimeSlot)
    (hts : a.timeslots = [(k, ts)]) :
    (a.remove_time_slot k now).1 = .ok () ∧
    (a.remove_time_slot k now).2.info = a.info ∧
    (a.remove_time_slot k now).2.timeslots = [] ∧
    (a.remove_time_slot k now).2.next_timeslot_id = a.next_timeslot_id := by
  unfold Actuator.remove_time_slot
  rw [hts]
  simp [mapLookup, mapErase]

lemma wrapRound_step (a : Actuator)
    (hinfo : a.info = toggleActuator.info) (hts : a.timeslots = []) :
    (runTrace a (wrapRound a.next_timeslot_id)).info = a.info ∧
    (runTrace a (wrapRound a.next_timeslot_id)).timeslots = [] ∧
    (runTrace a (wrapRound a.next_timeslot_id)).next_timeslot_id
      = (a.next_timeslot_id + 1) % 2 ^ 32 ∧
    issuedSlotIds a (wrapRound a.next_timeslot_id) = [a.next_timeslot_id] := by
  obtain ⟨h1, h2, h3, h4⟩ := add_s1A_on_empty a cegNow hinfo hts
  set b := (a.add_time_slot s1PeriodA (ActuatorState.Toggle true) true cegNow).2
    with hb
  obtain ⟨r1, r2, r3, r4⟩ := remove_singleton b cegNow a.next_timeslot_id
    (TimeSlot.new true (ActuatorState.Toggle true) s1PeriodA) h3
  have hrt : runTrace a (wrapRound a.next_timeslot_id)
      = (b.remove_time_slot a.next_timeslot_id cegNow).2 := rfl
  refine ⟨?_, ?_, ?_, ?_⟩
  · rw [hrt, r2]
    exact h2
  · rw [hrt]
    exact r3
  · rw [hrt, r4]
    exact h4
  · simp only [wrapRound, issuedSlotIds, opIssuedSlotId, h1]

lemma wrapTrace_spec (n : Nat) :
    (runTrace toggleActuator (wrapTrace n)).info = toggleActuator.info ∧
    (runTrace toggleActuator (wrapTrace n)).timeslots = [] ∧
    (runTrace toggleActuator (wrapTrace n)).next_timeslot_id = n % 2 ^ 32 ∧
    issuedSlotIds toggleActuator (wrapTrace n) = idSeq 0 n := by
  induction n with
  | zero => exact ⟨rfl, rfl, rfl, rfl⟩
  | succ n ih =>
    obtain ⟨hinfo, hts, hc, hids⟩ := ih
    have harg : wrapRound (n % 2 ^ 32)
        = wrapRound (runTrace toggleActuator (wrapTrace n)).next_timeslot_id := by
      rw [hc]
    obtain ⟨s1, s2, s3, s4⟩ :=
      wrapRound_step (runTrace toggleActuator (wrapTrace n)) hinfo hts
    have e1 : runTrace toggleActuator (wrapTrace (n + 1))
        = runTrace (runTrace toggleActuator (wrapTrace n))
            (wrapRound
              (runTrace toggleActuator (wrapTrace n)).next_timeslot_id) := by
      rw [wrapTrace_succ, runTrace_append, harg]
    have e2 : issuedSlotIds toggleActuator (wrapTrace (n + 1))
        = issuedSlotIds toggleActuator (wrapTrace n)
          ++ issuedSlotIds (runTrace toggleActuator (wrapTrace n))
              (wrapRound
                (runTrace toggleActuator (wrapTrace n)).next_timeslot_id) := by
      rw [wrapTrace_succ, issuedSlotIds_append, harg]
    refine ⟨?_, ?_, ?_, ?_⟩
    · rw [e1, s1]
      exact hinfo
    · rw [e1]
      exact s2
    · rw [e1, s3, hc, Nat.mod_add_mod]
    · rw [e2, s4, hids, hc, idSeq_snoc, Nat.zero_add]

/-- C8 (counterexample): the wrap-around trace of `2 ^ 32 + 1` add/remove
rounds on a fresh Toggle actuator refutes the claim's unbounded freshness:
slot id 0 is returned twice (the issued id list `0, 1, ..., 2 ^ 32 - 1, 0`
is not duplicate-free), and `next_timeslot_id` itself decreases back to 0
at the wrapping round after having reached `2 ^ 32 - 1` on a prefix of the
same trace. -/
theorem c8_wrap_reuses_slot_ids :
    ¬ (issuedSlotIds toggleActuator (wrapTrace (2 ^ 32 + 1))).Nodup ∧
    (∃ q, wrapTrace (2 ^ 32) = wrapTrace (2 ^ 32 - 1) ++ q) ∧
    (runTrace toggleActuator (wrapTrace (2 ^ 32 - 1))).next_timeslot_id
      = 2 ^ 32 - 1 ∧
    (runTrace toggleActuator (wrapTrace (2 ^ 32))).next_timeslot_id = 0 := by
  have hsplit : (2 : Nat) ^ 32 = 2 ^ 32 - 1 + 1 := by norm_num
  refine ⟨?_, ?_, ?_, ?_⟩
  · intro hnd
    rw [(wrapTrace_spec (2 ^ 32 + 1)).2.2.2, idSeq_snoc, Nat.zero_add,
      Nat.mod_self] at hnd
    have hmem : (0 : Nat) ∈ idSeq 0 (2 ^ 32) := by
      rw [hsplit,
        show idSeq 0 (2 ^ 32 - 1 + 1)
          = 0 % 2 ^ 32 :: idSeq (0 + 1) (2 ^ 32 - 1) from rfl,
        Nat.zero_mod]
      exact List.mem_cons_self _ _
    exact (List.nodup_append.mp hnd).2.2 hmem (List.mem_singleton.mpr rfl)
  · refine ⟨wrapRound ((2 ^ 32 - 1) % 2 ^ 32), ?_⟩
    conv_lhs => rw [hsplit]
    exact wrapTrace_succ _
  · rw [(wrapTrace_spec (2 ^ 32 - 1)).2.2.1]
    exact Nat.mod_eq_of_lt (by norm_num)
  · rw [(wrapTrace_spec (2 ^ 32)).2.2.1, Nat.mod_self]

lemma time_lt_iff_cmp {a b : Time} : Time.lt a b = true ↔ Time.cmp a b = Ordering.lt := by
  unfold Time.lt
  cases h : Time.cmp a b <;> decide

lemma time_le_iff_cmp {a b : Time} : Time.le a b = true ↔ Time.cmp a b ≠ Ordering.gt := by
  unfold Time.le
  cases h : Time.cmp a b <;> decide

lemma ordering_beq_eq_iff {o : Ordering} : (o == Ordering.eq) = true ↔ o = Ordering.eq := by
  cases o <;> decide

lemma schedLt_lex (x y : ScheduleTimeSlot) :
    schedLt x y = true ↔
      (x.time_interval.start.shifted_hour < y.time_interval.start.shifted_hour ∨
        (x.time_interval.start.shifted_hour = y.time_interval.start.shifted_hour ∧
          (x.time_interval.start.minute < y.time_interval.start.minute ∨
            (x.time_interval.start.minute = y.time_interval.start.minute ∧
              x.id < y.id)))) := by
  simp only [schedLt, Bool.or_eq_true, Bool.and_eq_true, time_lt_iff_cmp,
    ordering_beq_eq_iff, decide_eq_true_eq, time_cmp_lt_iff, time_cmp_eq_iff]
  omega

lemma schedLt_irrefl (x : ScheduleTimeSlot) : schedLt x x = false := by
  by_contra h
  rw [Bool.not_eq_false, schedLt_lex] at h
  omega

lemma schedLt_congr {e e' : ScheduleTimeSlot}
    (hsh : e.time_interval.start.shifted_hour = e'.time_interval.start.shifted_hour)
    (hm : e.time_interval.start.minute = e'.time_interval.start.minute)
    (hid : e.id = e'.id) (x : ScheduleTimeSlot) :
    (schedLt e x = schedLt e' x) ∧ (schedLt x e = schedLt x e') := by
  have hx : ∀ u v : Bool, (u = true ↔ v = true) → u = v := by decide
  refine ⟨hx _ _ ?_, hx _ _ ?_⟩ <;> (rw [schedLt_lex, schedLt_lex]; omega)

lemma lex_eq_of_not_lt {x y : ScheduleTimeSlot}
    (h1 : schedLt x y = false) (h2 : schedLt y x = false) :
    x.time_interval.start.shifted_hour = y.time_interval.start.shifted_hour ∧
    x.time_interval.start.minute = y.time_interval.start.minute ∧ x.id = y.id := by
  simp only [Bool.eq_false_iff, Ne, schedLt_lex] at h1 h2
  omega

lemma selectNext_eq_none {l : List ScheduleTimeSlot} :
    selectNext l = none ↔ l = [] := by
  cases l with
  | nil => simp [selectNext]
  | cons c rest =>
    simp only [selectNext]
    cases selectNext rest
    · simp
    · dsimp only
      split <;> simp

lemma selectNext_mem {l : List ScheduleTimeSlot} {w : ScheduleTimeSlot}
    (h : selectNext l = some w) : w ∈ l := by
  induction l generalizing w with
  | nil => simp [selectNext] at h
  | cons c rest ih =>
    unfold selectNext at h
    cases hr : selectNext rest with
    | none =>
      rw [hr] at h
      dsimp only at h
      simp only [Option.some.injEq] at h
      subst h
      exact List.mem_cons_self _ _
    | some b =>
      rw [hr] at h
      dsimp only at h
      split_ifs at h <;> simp only [Option.some.injEq] at h <;> subst h
      · exact List.mem_cons_of_mem _ (ih hr)
      · exact List.mem_cons_self _ _

lemma selectNext_min {l : List ScheduleTimeSlot} {w : ScheduleTimeSlot}
    (h : selectNext l = some w) : ∀ x ∈ l, schedLt x w = false := by
  induction l generalizing w with
  | nil => simp [selectNext] at h
  | cons c rest ih =>
    intro x hx
    unfold selectNext at h
    cases hr : selectNext rest with
    | none =>
      rw [hr] at h
      dsimp only at h
      simp only [Option.some.injEq] at h
      subst h
      rcases List.mem_cons.mp hx with rfl | hx2
      · exact schedLt_irrefl x
      · rw [selectNext_eq_none.mp hr] at hx2
        simp at hx2
    | some b =>
      rw [hr] at h
      dsimp only at h
      split_ifs at h with hlt <;> simp only [Option.some.injEq] at h <;> subst h
      · rcases List.mem_cons.mp hx with rfl | hx2
        · by_contra hcb
          rw [Bool.not_eq_false, schedLt_lex] at hcb
          rw [schedLt_lex] at hlt
          omega
        · exact ih hr x hx2
      · rcases List.mem_cons.mp hx with rfl | hx2
        · exact schedLt_irrefl x
        · have hxb := ih hr x hx2
          by_contra hxc
          rw [Bool.not_eq_false, schedLt_lex] at hxc
          simp only [Bool.eq_false_iff, Ne, schedLt_lex] at hxb
          simp only [schedLt_lex] at hlt
          omega

lemma selectNext_erase_middle {m1 m2 : List ScheduleTimeSlot} {e w : ScheduleTimeSlot}
    (hids : ((m1 ++ e :: m2).map ScheduleTimeSlot.id).Nodup)
    (h : selectNext (m1 ++ e :: m2) = some w) (hne : w.id ≠ e.id) :
    selectNext (m1 ++ m2) = some w := by
  have hmem : w ∈ m1 ++ e :: m2 := selectNext_mem h
  have hwm : w ∈ m1 ++ m2 := by
    rcases List.mem_append.mp hmem with h1 | h2
    · exact List.mem_append.mpr (Or.inl h1)
    · rcases List.mem_cons.mp h2 with rfl | h3
      · exact absurd rfl hne
      · exact List.mem_append.mpr (Or.inr h3)
  cases hr : selectNext (m1 ++ m2) with
  | none =>
    rw [selectNext_eq_none] at hr
    rw [hr] at hwm
    simp at hwm
  | some w2 =>
    have hw2m : w2 ∈ m1 ++ m2 := selectNext_mem hr
    have hw2M : w2 ∈ m1 ++ e :: m2 := by
      rcases List.mem_append.mp hw2m with h1 | h2
      · exact List.mem_append.mpr (Or.inl h1)
      · exact List.mem_append.mpr (Or.inr (List.mem_cons_of_mem _ h2))
    have h1 : schedLt w2 w = false := selectNext_min h w2 hw2M
    have h2 : schedLt w w2 = false := selectNext_min hr w hwm
    have hlex := lex_eq_of_not_lt h2 h1
    have heq : w = w2 := List.inj_on_of_nodup_map hids hmem hw2M hlex.2.2
    rw [heq]

lemma selectNext_subst_middle {m1 m2 : List ScheduleTimeSlot} (e e' : ScheduleTimeSlot)
    (hids : ((m1 ++ e :: m2).map ScheduleTimeSlot.id).Nodup)
    (hsh : e.time_interval.start.shifted_hour = e'.time_interval.start.shifted_hour)
    (hm : e.time_interval.start.minute = e'.time_interval.start.minute)
    (hid : e.id = e'.id) {w : ScheduleTimeSlot}
    (h : selectNext (m1 ++ e :: m2) = some w) :
    (w.id ≠ e.id → selectNext (m1 ++ e' :: m2) = some w) ∧
    (w.id = e.id → selectNext (m1 ++ e' :: m2) = some e') := by
  have hmem : w ∈ m1 ++ e :: m2 := selectNext_mem h
  have hA := selectNext_min h
  have hidmid : e.id ∉ (m1 ++ m2).map ScheduleTimeSlot.id := by
    have h1 : ((m1 ++ e :: m2).map ScheduleTimeSlot.id) =
        m1.map ScheduleTimeSlot.id ++ e.id :: m2.map ScheduleTimeSlot.id := by simp
    rw [h1, List.nodup_middle] at hids
    have := (List.nodup_cons.mp hids).1
    simpa using this
  cases hr : selectNext (m1 ++ e' :: m2) with
  | none =>
    rw [selectNext_eq_none] at hr
    exact absurd hr (by simp)
  | some w2 =>
    have hw2m : w2 ∈ m1 ++ e' :: m2 := selectNext_mem hr
    have hB := selectNext_min hr
    constructor
    · intro hne
      have hwm' : w ∈ m1 ++ e' :: m2 := by
        rcases List.mem_append.mp hmem with h1 | h2
        · exact List.mem_append.mpr (Or.inl h1)
        · rcases List.mem_cons.mp h2 with rfl | h3
          · exact absurd rfl hne
          · exact List.mem_append.mpr (Or.inr (List.mem_cons_of_mem _ h3))
      have hww2 : schedLt w w2 = false := hB w hwm'
      by_cases hw2e : w2 = e'
      · exfalso
        subst hw2e
        have he : schedLt e w = false :=
          hA e (List.mem_append.mpr (Or.inr (List.mem_cons_self _ _)))
        have he' : schedLt w2 w = false := by
          rw [← (schedLt_congr hsh hm hid w).1]
          exact he
        have hlex := lex_eq_of_not_lt hww2 he'
        exact hne (hlex.2.2.trans hid.symm)
      · have hw2mid : w2 ∈ m1 ++ m2 := by
          rcases List.mem_append.mp hw2m with h1 | h2
          · exact List.mem_append.mpr (Or.inl h1)
          · rcases List.mem_cons.mp h2 with rfl | h3
            · exact absurd rfl hw2e
            · exact List.mem_append.mpr (Or.inr h3)
        have hw2M : w2 ∈ m1 ++ e :: m2 := by
          rcases List.mem_append.mp hw2mid with h1 | h2
          · exact List.mem_append.mpr (Or.inl h1)
          · exact List.mem_append.mpr (Or.inr (List.mem_cons_of_mem _ h2))
        have hw2w : schedLt w2 w = false := hA w2 hw2M
        have hlex := lex_eq_of_not_lt hww2 hw2w
        have heq : w = w2 := List.inj_on_of_nodup_map hids hmem hw2M hlex.2.2
        rw [heq]
    · intro hide
      have hwe : w = e := by
        refine List.inj_on_of_nodup_map hids hmem ?_ hide
        exact List.mem_append.mpr (Or.inr (List.mem_cons_self _ _))
      by_cases hw2e : w2 = e'
      · rw [hw2e]
      · exfalso
        have hw2mid : w2 ∈ m1 ++ m2 := by
          rcases List.mem_append.mp hw2m with h1 | h2
          · exact List.mem_append.mpr (Or.inl h1)
          · rcases List.mem_cons.mp h2 with rfl | h3
            · exact absurd rfl hw2e
            · exact List.mem_append.mpr (Or.inr h3)
        have hw2M : w2 ∈ m1 ++ e :: m2 := by
          rcases List.mem_append.mp hw2mid with h1 | h2
          · exact List.mem_append.mpr (Or.inl h1)
          · exact List.mem_append.mpr (Or.inr (List.mem_cons_of_mem _ h2))
        have h1 : schedLt w2 w = false := hA w2 hw2M
        have h2 : schedLt w w2 = false := by
          rw [hwe, (schedLt_congr hsh hm hid w2).1]
          exact hB e' (List.mem_append.mpr (Or.inr (List.mem_cons_self _ _)))
        have hlex := lex_eq_of_not_lt h2 h1
        have hx : w2.id = e.id := hlex.2.2.symm.trans hide
        exact hidmid (hx ▸ List.mem_map_of_mem _ hw2mid)

lemma mapLookup_decomp {α : Type} {k : Nat} {v : α} {l : List (Nat × α)}
    (h : mapLookup k l = some v) :
    ∃ l1 l2, l = l1 ++ (k, v) :: l2 ∧
      mapErase k l = l1 ++ l2 ∧
      (∀ f, mapModify k f l = l1 ++ (k, f v) :: l2) ∧
      ∀ kv ∈ l1, kv.1 ≠ k := by
  induction l with
  | nil => simp [mapLookup] at h
  | cons kv rest ih =>
    unfold mapLookup at h
    split_ifs at h with hk
    · cases kv
      simp only [Option.some.injEq] at h
      subst h
      rename_i k1 _
      subst hk
      exact ⟨[], rest, rfl, by simp [mapErase], fun f => by simp [mapModify], by simp⟩
    · obtain ⟨l1, l2, hdec, herase, hmod, hl1⟩ := ih h
      refine ⟨kv :: l1, l2, by rw [List.cons_append, ← hdec], ?_, ?_, ?_⟩
      · unfold mapErase
        rw [if_neg hk, herase, List.cons_append]
      · intro f
        unfold mapModify
        rw [if_neg hk, hmod f, List.cons_append]
      · intro kv2 hkv2
        rcases List.mem_cons.mp hkv2 with rfl | h2
        · exact hk
        · exact hl1 kv2 h2

lemma cand_id {now : DateTime} {kv : Nat × TimeSlot} {c : ScheduleTimeSlot}
    (h : scheduleCandidate now kv = some c) : c.id = kv.1 := by
  unfold scheduleCandidate at h
  split_ifs at h
  cases hti : kv.2.time_interval_on now.date with
  | none => rw [hti] at h; simp at h
  | some p =>
    rw [hti] at h
    dsimp only at h
    split_ifs at h
    simp only [Option.some.injEq] at h
    subst h
    rfl

lemma cand_ids_sub {now : DateTime} {l : List (Nat × TimeSlot)} {c : ScheduleTimeSlot}
    (h : c ∈ l.filterMap (scheduleCandidate now)) : c.id ∈ l.map Prod.fst := by
  rcases List.mem_filterMap.mp h with ⟨kv, hkv, hc⟩
  rw [cand_id hc]
  exact List.mem_map_of_mem _ hkv

lemma cand_ids_nodup (now : DateTime) {l : List (Nat × TimeSlot)}
    (h : (l.map Prod.fst).Nodup) :
    ((l.filterMap (scheduleCandidate now)).map ScheduleTimeSlot.id).Nodup := by
  induction l with
  | nil => simp
  | cons kv rest ih =>
    rw [List.map_cons] at h
    obtain ⟨hk, hrest⟩ := List.nodup_cons.mp h
    cases hc : scheduleCandidate now kv with
    | none => rw [List.filterMap_cons, hc]; exact ih hrest
    | some c =>
      rw [List.filterMap_cons, hc, List.map_cons]
      refine List.nodup_cons.mpr ⟨?_, ih hrest⟩
      intro hmem
      rcases List.mem_map.mp hmem with ⟨c2, hc2, hcid⟩
      have := cand_ids_sub hc2
      rw [hcid, cand_id hc] at this
      exact hk this

lemma cand_disabled {now : DateTime} {k : Nat} {v : TimeSlot} :
    scheduleCandidate now (k, { v with enabled := false }) = none := rfl

lemma time_interval_on_irrel (e : Bool) (s : ActuatorState) (v : TimeSlot) (d : Date) :
    (TimeSlot.mk e s v.time_period v.time_override).time_interval_on d
      = v.time_interval_on d := rfl

lemma cand_set_state {now : DateTime} {k : Nat} {v : TimeSlot} {s : ActuatorState} :
    scheduleCandidate now (k, { v with actuator_state := s }) =
      (scheduleCandidate now (k, v)).map (fun c => { c with actuator_state := s }) := by
  unfold scheduleCandidate
  dsimp only
  rw [time_interval_on_irrel]
  cases henb : v.enabled
  · simp
  · simp only [if_true]
    cases hti : v.time_interval_on now.date with
    | none => simp
    | some p => cases p with
      | mk tit oid =>
        dsimp only
        split_ifs <;> rfl

lemma find_next_erase {l : List (Nat × TimeSlot)} (now : DateTime) {k : Nat} {v : TimeSlot}
    (hnodup : (l.map Prod.fst).Nodup) (hlk : mapLookup k l = some v) :
    (∀ w, find_next_timeslot l now = some w → w.id ≠ k →
      find_next_timeslot (mapErase k l) now = some w) ∧
    (find_next_timeslot l now = none → find_next_timeslot (mapErase k l) now = none) := by
  obtain ⟨l1, l2, hdec, herase, hmod, hl1⟩ := mapLookup_decomp hlk
  have hcnodup := cand_ids_nodup now hnodup
  subst hdec
  rw [herase]
  unfold find_next_timeslot
  simp only [List.filterMap_append] at hcnodup ⊢
  cases hc : scheduleCandidate now (k, v) with
  | none =>
    rw [List.filterMap_cons_none hc]
    exact ⟨fun w h _ => h, fun h => h⟩
  | some c =>
    rw [List.filterMap_cons_some hc] at hcnodup ⊢
    refine ⟨fun w h hne => ?_, fun h => ?_⟩
    · exact selectNext_erase_middle hcnodup h (by rw [cand_id hc]; exact hne)
    · rw [selectNext_eq_none] at h
      simp at h

lemma find_next_disable {l : List (Nat × TimeSlot)} (now : DateTime) {k : Nat}
    {v : TimeSlot} (hnodup : (l.map Prod.fst).Nodup) (hlk : mapLookup k l = some v) :
    (∀ w, find_next_timeslot l now = some w → w.id ≠ k →
      find_next_timeslot (mapModify k (fun _ => { v with enabled := false }) l) now
        = some w) ∧
    (find_next_timeslot l now = none →
      find_next_timeslot (mapModify k (fun _ => { v with enabled := false }) l) now
        = none) := by
  obtain ⟨l1, l2, hdec, herase, hmod, hl1⟩ := mapLookup_decomp hlk
  have hcnodup := cand_ids_nodup now hnodup
  subst hdec
  rw [hmod]
  unfold find_next_timeslot
  simp only [List.filterMap_append] at hcnodup ⊢
  rw [List.filterMap_cons_none cand_disabled]
  cases hc : scheduleCandidate now (k, v) with
  | none =>
    rw [List.filterMap_cons_none hc]
    exact ⟨fun w h _ => h, fun h => h⟩
  | some c =>
    rw [List.filterMap_cons_some hc]
    refine ⟨fun w h hne => ?_, fun h => ?_⟩
    · refine selectNext_erase_middle ?_ h (by rw [cand_id hc]; exact hne)
      rw [List.filterMap_cons_some hc] at hcnodup
      exact hcnodup
    · rw [selectNext_eq_none] at h
      simp at h

lemma keys_not_mem_of_nodup {l1 l2 : List (Nat × TimeSlot)} {k : Nat} {v : TimeSlot}
    (hnodup : ((l1 ++ (k, v) :: l2).map Prod.fst).Nodup) :
    k ∉ l1.map Prod.fst ∧ k ∉ l2.map Prod.fst := by
  have h1 : ((l1 ++ (k, v) :: l2).map Prod.fst) =
      l1.map Prod.fst ++ k :: l2.map Prod.fst := by simp
  rw [h1, List.nodup_middle] at hnodup
  have := (List.nodup_cons.mp hnodup).1
  simp only [List.mem_append] at this
  exact ⟨fun hx => this (Or.inl hx), fun hx => this (Or.inr hx)⟩

lemma find_next_set_state {l : List (Nat × TimeSlot)} (now : DateTime) {k : Nat}
    {v : TimeSlot} {s : ActuatorState}
    (hnodup : (l.map Prod.fst).Nodup) (hlk : mapLookup k l = some v) :
    (find_next_timeslot l now = none →
      find_next_timeslot (mapModify k (fun _ => { v with actuator_state := s }) l) now
        = none) ∧
    (∀ w, find_next_timeslot l now = some w →
      (w.id ≠ k →
        find_next_timeslot (mapModify k (fun _ => { v with actuator_state := s }) l) now
          = some w) ∧
      (w.id = k →
        find_next_timeslot (mapModify k (fun _ => { v with actuator_state := s }) l) now
          = some { w with actuator_state := s })) := by
  obtain ⟨l1, l2, hdec, herase, hmod, hl1⟩ := mapLookup_decomp hlk
  have hcnodup := cand_ids_nodup now hnodup
  obtain ⟨hk1, hk2⟩ := keys_not_mem_of_nodup (by rw [← hdec]; exact hnodup)
  subst hdec
  rw [hmod]
  unfold find_next_timeslot
  simp only [List.filterMap_append] at hcnodup ⊢
  cases hc : scheduleCandidate now (k, v) with
  | none =>
    have hc' : scheduleCandidate now (k, { v with actuator_state := s }) = none := by
      rw [cand_set_state, hc]
      rfl
    rw [List.filterMap_cons_none hc, List.filterMap_cons_none hc']
    refine ⟨fun h => h, fun w h => ⟨fun _ => h, fun hk => ?_⟩⟩
    exfalso
    have hmemw := selectNext_mem h
    rcases List.mem_append.mp hmemw with hin | hin
    · rcases List.mem_filterMap.mp hin with ⟨kv, hkvm, hkvc⟩
      have := cand_id hkvc
      exact hk1 (by
        rw [← hk, this] at *
        exact List.mem_map_of_mem _ hkvm)
    · rcases List.mem_filterMap.mp hin with ⟨kv, hkvm, hkvc⟩
      have := cand_id hkvc
      exact hk2 (by
        rw [← hk, this] at *
        exact List.mem_map_of_mem _ hkvm)
  | some c =>
    have hc' : scheduleCandidate now (k, { v with actuator_state := s })
        = some { c with actuator_state := s } := by
      rw [cand_set_state, hc]
      rfl
    rw [List.filterMap_cons_some hc] at hcnodup ⊢
    rw [List.filterMap_cons_some hc']
    have hcid : c.id = k := cand_id hc
    refine ⟨fun h => ?_, fun w h => ?_⟩
    · rw [selectNext_eq_none] at h
      simp at h
    · have hsub := selectNext_subst_middle c { c with actuator_state := s }
        hcnodup rfl rfl rfl h
      refine ⟨fun hne => hsub.1 (by rw [hcid]; exact hne), fun hk => ?_⟩
      have hwc : w = c := by
        refine List.inj_on_of_nodup_map hcnodup (selectNext_mem h) ?_ (by rw [hk, hcid])
        exact List.mem_append.mpr (Or.inr (List.mem_cons_self _ _))
      rw [hsub.2 (by rw [hk, hcid]), hwc]

lemma updateComm_active (a : Actuator) (f : ActiveTimeSlot → ActiveTimeSlot) :
    (updateComm a f).active_timeslot = f a.comm.active_timeslot := by
  unfold updateComm
  dsimp only
  split_ifs with h
  · exact h.symm
  · rfl

lemma sds_reduce {a : Actuator} {s : ActuatorState} {now : DateTime}
    (hv : a.valid_state s = true) :
    a.set_default_state s now =
      (.ok (), { a with
        default_state := s
        comm := updateComm { a with default_state := s } (fun ats =>
          (match ats.state with
          | .DefaultStateActive _ _ => { ats with actuator_state := s }
          | _ => ats)) }) := by
  unfold Actuator.set_default_state
  rw [hv]
  rfl

lemma c2_part_set_default {a : Actuator} {s : ActuatorState} {now : DateTime}
    (hsync : a.comm.active_timeslot =
      ActiveTimeSlot.compute now a.timeslots a.default_state)
    (h : (a.set_default_state s now).1 = .ok ()) :
    (a.set_default_state s now).2.comm.active_timeslot =
      ActiveTimeSlot.compute now (a.set_default_state s now).2.timeslots
        (a.set_default_state s now).2.default_state := by
  cases hv : a.valid_state s with
  | false =>
    exfalso
    unfold Actuator.set_default_state at h
    rw [hv] at h
    simp at h
  | true =>
    rw [sds_reduce hv]
    dsimp only
    rw [updateComm_active]
    dsimp only
    rw [hsync]
    unfold ActiveTimeSlot.compute
    cases hfn : find_next_timeslot a.timeslots now with
    | none => rfl
    | some w =>
      dsimp only
      split_ifs with hstart <;> rfl

lemma rts_reduce {a : Actuator} {id : Nat} {ts : TimeSlot} {now : DateTime}
    (hlk : mapLookup id a.timeslots = some ts) :
    a.remove_time_slot id now =
      (.ok (), { a with
        timeslots := mapErase id a.timeslots
        comm := updateComm { a with timeslots := mapErase id a.timeslots } (fun ats =>
          ats.update_timeslot_removed id (mapErase id a.timeslots)
            a.default_state now) }) := by
  unfold Actuator.remove_time_slot
  rw [hlk]
  rfl

lemma c2_part_remove {a : Actuator} {id : Nat} {now : DateTime}
    (hnodup : (a.timeslots.map Prod.fst).Nodup)
    (hsync : a.comm.active_timeslot =
      ActiveTimeSlot.compute now a.timeslots a.default_state)
    (h : (a.remove_time_slot id now).1 = .ok ()) :
    (a.remove_time_slot id now).2.comm.active_timeslot =
      ActiveTimeSlot.compute now (a.remove_time_slot id now).2.timeslots
        (a.remove_time_slot id now).2.default_state := by
  cases hlk : mapLookup id a.timeslots with
  | none =>
    exfalso
    unfold Actuator.remove_time_slot at h
    rw [hlk] at h
    simp at h
  | some ts =>
    obtain ⟨hsome, hnone⟩ := find_next_erase now hnodup hlk
    rw [rts_reduce hlk]
    dsimp only
    rw [updateComm_active]
    dsimp only
    rw [hsync]
    unfold ActiveTimeSlot.update_timeslot_removed
    unfold ActiveTimeSlot.compute
    cases hfn : find_next_timeslot a.timeslots now with
    | none =>
      rw [hnone hfn]
      rfl
    | some w =>
      dsimp only
      by_cases hw : w.id = id
      · split_ifs with hstart hr1 hr2 <;>
          first
            | rfl
            | simp_all [ActiveTimeSlot.timeslot, ActiveTimeSlot.default_state_until,
                ActiveTimeSlot.default_state]
      · rw [hsome w hfn hw]
        split_ifs with hstart hr1 hr2 <;>
          first
            | rfl
            | simp_all [ActiveTimeSlot.timeslot, ActiveTimeSlot.default_state_until,
                ActiveTimeSlot.default_state]

lemma tse_reduce_disable {a : Actuator} {id : Nat} {ts : TimeSlot} {now : DateTime}
    (hlk : mapLookup id a.timeslots = some ts) (henb : ts.enabled = true) :
    a.time_slot_set_enabled id false now =
      (.ok (), { a with
        timeslots := (mapModify id (fun _ => { ts with enabled := false }) a.timeslots)
        comm := (updateComm
          { a with timeslots :=
              (mapModify id (fun _ => { ts with enabled := false }) a.timeslots) }
          (fun ats => ats.update_timeslot_removed id
            (mapModify id (fun _ => { ts with enabled := false }) a.timeslots)
            a.default_state now)) }) := by
  unfold Actuator.time_slot_set_enabled
  rw [hlk]
  dsimp only
  rw [henb]
  rfl

lemma tse_reduce_noop {a : Actuator} {id : Nat} {ts : TimeSlot} {now : DateTime}
    (hlk : mapLookup id a.timeslots = some ts) (henb : ts.enabled = false) :
    a.time_slot_set_enabled id false now = (.ok (), a) := by
  have hts : { ts with enabled := false } = ts := by
    cases ts
    simp_all
  unfold Actuator.time_slot_set_enabled
  rw [hlk]
  dsimp only
  rw [henb, hts, mapModify_lookup_self hlk]
  rfl

lemma c2_part_disable {a : Actuator} {id : Nat} {now : DateTime}
    (hnodup : (a.timeslots.map Prod.fst).Nodup)
    (hsync : a.comm.active_timeslot =
      ActiveTimeSlot.compute now a.timeslots a.default_state)
    (h : (a.time_slot_set_enabled id false now).1 = .ok ()) :
    (a.time_slot_set_enabled id false now).2.comm.active_timeslot =
      ActiveTimeSlot.compute now (a.time_slot_set_enabled id false now).2.timeslots
        (a.time_slot_set_enabled id false now).2.default_state := by
  cases hlk : mapLookup id a.timeslots with
  | none =>
    exfalso
    unfold Actuator.time_slot_set_enabled at h
    rw [hlk] at h
    simp at h
  | some ts =>
    cases henb : ts.enabled with
    | false =>
      rw [tse_reduce_noop hlk henb]
      exact hsync
    | true =>
      obtain ⟨hsome, hnone⟩ := find_next_disable now hnodup hlk
      rw [tse_reduce_disable hlk henb]
      dsimp only
      rw [updateComm_active]
      dsimp only
      rw [hsync]
      unfold ActiveTimeSlot.update_timeslot_removed
      unfold ActiveTimeSlot.compute
      cases hfn : find_next_timeslot a.timeslots now with
      | none =>
        rw [hnone hfn]
        rfl
      | some w =>
        dsimp only
        by_cases hw : w.id = id
        · split_ifs with hstart hr1 hr2 <;>
            first
              | rfl
              | simp_all [ActiveTimeSlot.timeslot, ActiveTimeSlot.default_state_until,
                  ActiveTimeSlot.default_state]
        · rw [hsome w hfn hw]
          split_ifs with hstart hr1 hr2 <;>
            first
              | rfl
              | simp_all [ActiveTimeSlot.timeslot, ActiveTimeSlot.default_state_until,
                  ActiveTimeSlot.default_state]

lemma tsas_reduce {a : Actuator} {id : Nat} {ts : TimeSlot} {s : ActuatorState}
    {now : DateTime} (hv : a.valid_state s = true)
    (hlk : mapLookup id a.timeslots = some ts) :
    a.time_slot_set_actuator_state id s now =
      (.ok (), { a with
        timeslots := (mapModify id (fun _ => { ts with actuator_state := s }) a.timeslots)
        comm := (updateComm
          { a with timeslots :=
              (mapModify id (fun _ => { ts with actuator_state := s }) a.timeslots) }
          (fun ats =>
            (match ats.state with
            | .TimeSlotActive id2 _ =>
              if id2 = id then { ats with actuator_state := s } else ats
            | _ => ats))) }) := by
  unfold Actuator.time_slot_set_actuator_state
  rw [hv, hlk]
  rfl

lemma c2_part_set_state {a : Actuator} {id : Nat} {s : ActuatorState} {now : DateTime}
    (hnodup : (a.timeslots.map Prod.fst).Nodup)
    (hsync : a.comm.active_timeslot =
      ActiveTimeSlot.compute now a.timeslots a.default_state)
    (h : (a.time_slot_set_actuator_state id s now).1 = .ok ()) :
    (a.time_slot_set_actuator_state id s now).2.comm.active_timeslot =
      ActiveTimeSlot.compute now
        (a.time_slot_set_actuator_state id s now).2.timeslots
        (a.time_slot_set_actuator_state id s now).2.default_state := by
  cases hv : a.valid_state s with
  | false =>
    exfalso
    unfold Actuator.time_slot_set_actuator_state at h
    rw [hv] at h
    simp at h
  | true =>
    cases hlk : mapLookup id a.timeslots with
    | none =>
      exfalso
      unfold Actuator.time_slot_set_actuator_state at h
      rw [hv, hlk] at h
      simp at h
    | some ts =>
      obtain ⟨hnone, hsome⟩ := find_next_set_state now (s := s) hnodup hlk
      rw [tsas_reduce hv hlk]
      dsimp only
      rw [updateComm_active]
      dsimp only
      rw [hsync]
      unfold ActiveTimeSlot.compute
      cases hfn : find_next_timeslot a.timeslots now with
      | none =>
        rw [hnone hfn]
        rfl
      | some w =>
        dsimp only
        by_cases hw : w.id = id
        · rw [(hsome w hfn).2 hw]
          split_ifs with hstart <;>
            simp_all [ActiveTimeSlot.timeslot, ActiveTimeSlot.default_state_until]
        · rw [(hsome w hfn).1 hw]
          split_ifs with hstart <;>
            first
              | rfl
              | simp_all [ActiveTimeSlot.timeslot, ActiveTimeSlot.default_state_until]

/-- C2 (amended): provided the comm record's ActiveSlot agrees with
`compute(now, slots, default_state)` at the instant of the call and slot ids
are distinct, the in-place and removal-type incremental updates —
`remove_time_slot`, `set_default_state`, `time_slot_set_enabled(false)` and
`time_slot_set_actuator_state` — leave the ActiveSlot equal to a full
recompute over the post-mutation state. (The `update_timeslot_added` /
`update_timeslot_modified` fast paths used by the remaining mutators do not
have this property in general; see the counterexample.) -/
theorem c2_inplace_and_removal_updates_match_compute
    (a : Actuator) (now : DateTime)
    (hnodup : (a.timeslots.map Prod.fst).Nodup)
    (hsync : a.comm.active_timeslot =
      ActiveTimeSlot.compute now a.timeslots a.default_state) :
    (∀ id, (a.remove_time_slot id now).1 = .ok () →
      (a.remove_time_slot id now).2.comm.active_timeslot =
        ActiveTimeSlot.compute now (a.remove_time_slot id now).2.timeslots
          (a.remove_time_slot id now).2.default_state) ∧
    (∀ s, (a.set_default_state s now).1 = .ok () →
      (a.set_default_state s now).2.comm.active_timeslot =
        ActiveTimeSlot.compute now (a.set_default_state s now).2.timeslots
          (a.set_default_state s now).2.default_state) ∧
    (∀ id, (a.time_slot_set_enabled id false now).1 = .ok () →
      (a.time_slot_set_enabled id false now).2.comm.active_timeslot =
        ActiveTimeSlot.compute now (a.time_slot_set_enabled id false now).2.timeslots
          (a.time_slot_set_enabled id false now).2.default_state) ∧
    (∀ id s, (a.time_slot_set_actuator_state id s now).1 = .ok () →
      (a.time_slot_set_actuator_state id s now).2.comm.active_timeslot =
        ActiveTimeSlot.compute now
          (a.time_slot_set_actuator_state id s now).2.timeslots
          (a.time_slot_set_actuator_state id s now).2.default_state) :=
  ⟨fun _ h => c2_part_remove hnodup hsync h,
   fun _ h => c2_part_set_default hsync h,
   fun _ h => c2_part_disable hnodup hsync h,
   fun _ _ h => c2_part_set_state hnodup hsync h⟩

/-- C2 (witness): the amended equivalence applied to an actuator holding one
slot (23:05–03:05 on 08/05/2017) whose ActiveSlot is in sync at 12:00, for
the removal of that slot. -/
theorem c2_inplace_updates_witness :
    (((s1Step1 cegNow).2.timeslots.map Prod.fst).Nodup) ∧
    ((s1Step1 cegNow).2.comm.active_timeslot =
      ActiveTimeSlot.compute cegNow (s1Step1 cegNow).2.timeslots
        (s1Step1 cegNow).2.default_state) ∧
    (((s1Step1 cegNow).2.remove_time_slot 0 cegNow).1 = .ok () →
      ((s1Step1 cegNow).2.remove_time_slot 0 cegNow).2.comm.active_timeslot =
        ActiveTimeSlot.compute cegNow
          ((s1Step1 cegNow).2.remove_time_slot 0 cegNow).2.timeslots
          ((s1Step1 cegNow).2.remove_time_slot 0 cegNow).2.default_state) :=
  ⟨by decide, by decide,
    (c2_inplace_and_removal_updates_match_compute (s1Step1 cegNow).2 cegNow
      (by decide) (by decide)).1 0⟩
